import Mathlib

/-!
Verification of the transcription orchestration core of the `tron` repository
(`services/transcribe/`): a shallow embedding in Lean 4 of `cleanup.py`,
`engine.py` and the admission gate of `app.py`, together with proofs about the
embedded definitions.

Conventions of the embedding:
* Python strings are Lean `String`/`List Char`; Python float arithmetic on
  durations and segment bounds is modelled over `ℚ` (the quantities involved
  are exact ratios of machine integers).
* `Optional[T]` is `Option T`; Python exceptions are `Except PyError`.
* External collaborators (backend model libraries, `ffmpeg`, the remote
  cleanup endpoint, the filesystem) enter as explicit environment records;
  the control flow around them is translated from the source.
-/

/-- Python exception classes that the transcribe core raises or handles. -/
inductive PyError
  | valueError (msg : String)
  | runtimeError (msg : String)
  | attributeError (msg : String)
  | typeError (msg : String)
deriving DecidableEq, Repr

/-! ## Python string primitives

`str.strip()` / `re \s` whitespace.  In CPython the character set matched by
`\s` in a unicode pattern coincides with the set of characters for which
`str.isspace()` is true; both are modelled by `isPySpace`. -/

def isPySpace (c : Char) : Bool :=
  c = ' ' || c = '\t' || c = '\n' || c = '\x0b' || c = '\x0c' || c = '\r' ||
  c = '\x1c' || c = '\x1d' || c = '\x1e' || c = '\x1f' ||
  c = '\x85' || c = '\xa0' || c = ' ' ||
  (' ' ≤ c && c ≤ ' ') ||
  c = ' ' || c = ' ' || c = ' ' || c = ' ' || c = '　'

/-- `str.strip()` on a character list. -/
def pyStripL (l : List Char) : List Char :=
  ((l.dropWhile isPySpace).reverse.dropWhile isPySpace).reverse

/-- `str.strip()`. -/
def pyStripStr (s : String) : String := ⟨pyStripL s.data⟩

/-- The punctuation set of `_SPACE_BEFORE_PUNCT_RE` in `cleanup.py`. -/
def isPunct (c : Char) : Bool :=
  c = ',' || c = '.' || c = ';' || c = ':' || c = '!' || c = '?'

/-- `_WHITESPACE_RE.sub(" ", ·)`: every maximal whitespace run becomes one
space.  The flag records whether the previous character belonged to a run
whose replacement space has already been emitted. -/
def collapseAux : Bool → List Char → List Char
  | _, [] => []
  | prevSpace, c :: rest =>
    if isPySpace c then
      if prevSpace then collapseAux true rest
      else ' ' :: collapseAux true rest
    else c :: collapseAux false rest

/-- `_SPACE_BEFORE_PUNCT_RE.sub(r"\1", ·)`: a maximal whitespace run that is
immediately followed by a punctuation mark is deleted (the mark is kept);
any other run is kept verbatim.  `pending` is the whitespace run read so
far and not yet decided. -/
def spAux (pending : List Char) : List Char → List Char
  | [] => pending
  | c :: rest =>
    if isPySpace c then spAux (pending ++ [c]) rest
    else if isPunct c && !pending.isEmpty then c :: spAux [] rest
    else pending ++ c :: spAux [] rest

/-- `basic_cleanup` of `cleanup.py` on a character list: strip, collapse
whitespace runs, drop whitespace before punctuation. -/
def basicCleanupL (l : List Char) : List Char :=
  spAux [] (collapseAux false (pyStripL l))

/-- `basic_cleanup` of `cleanup.py`. -/
def basic_cleanup (s : String) : String := ⟨basicCleanupL s.data⟩


/-! ## `str.splitlines()` and the preamble pattern -/

/-- The line-boundary characters of `str.splitlines()` (besides `"\r\n"`,
which is a single boundary). -/
def isLineBreak (c : Char) : Bool :=
  c = '\n' || c = '\x0b' || c = '\x0c' || c = '\r' ||
  c = '\x1c' || c = '\x1d' || c = '\x1e' || c = '\x85' ||
  c = ' ' || c = ' '

def splitlinesAux (cur : List Char) : List Char → List (List Char)
  | [] => if cur.isEmpty then [] else [cur.reverse]
  | [c] =>
    if isLineBreak c then [cur.reverse]
    else [(c :: cur).reverse]
  | c :: c2 :: rest =>
    if c = '\r' then
      if c2 = '\n' then cur.reverse :: splitlinesAux [] rest
      else cur.reverse :: splitlinesAux [] (c2 :: rest)
    else if isLineBreak c then cur.reverse :: splitlinesAux [] (c2 :: rest)
    else splitlinesAux (c :: cur) (c2 :: rest)

/-- `str.splitlines()`. -/
def pySplitlines (s : String) : List String :=
  (splitlinesAux [] s.data).map fun l => ⟨l⟩

def joinNLChars : List (List Char) → List Char
  | [] => []
  | [x] => x
  | x :: xs => x ++ '\n' :: joinNLChars xs

/-- `"\n".join(lines)`. -/
def pyJoinNL (lines : List String) : String :=
  ⟨joinNLChars (lines.map String.data)⟩


/-- `\w` (ASCII part) for the `\b` boundary of `_PREAMBLE_RE`. -/
def isWordChar (c : Char) : Bool := c.isAlphanum || c = '_'

/-- The alternatives of `_PREAMBLE_RE` in `cleanup.py`:
`here(?:'| i)?s`, `cleaned(?:-up)? transcription`, `clean transcription`,
`cleaned transcript` (case-insensitive, each followed by `\b`). -/
def preambleAlts : List (List Char) :=
  ["here\x27s".data, "here is".data, "heres".data,
   "cleaned-up transcription".data, "cleaned transcription".data,
   "clean transcription".data, "cleaned transcript".data]

/-- `_PREAMBLE_RE.match(head)` as a Boolean: some alternative matches at the
start of the line and ends at a word boundary. -/
def preambleMatch (head : String) : Bool :=
  let h := head.data.map Char.toLower
  preambleAlts.any fun alt =>
    alt.isPrefixOf h &&
      (match h.drop alt.length with
       | [] => true
       | c :: _ => !isWordChar c)


/-! ## JSON (`json.loads`), as used by the LLM-output extraction

Nonfinite literals (`NaN`, `Infinity`) are not modelled; a lone surrogate
escape degrades to `NUL` because Lean characters are scalar values. -/

def lbrace : Char := Char.ofNat 123
def rbrace : Char := Char.ofNat 125
def squote : Char := Char.ofNat 39

inductive Json
  | jnull
  | jbool (b : Bool)
  | jnum (v : ℚ) (raw : String)
  | jstr (s : String)
  | jarr (elems : List Json)
  | jobj (fields : List (String × Json))
deriving Inhabited

/-- The whitespace skipped by the JSON decoder (only these four). -/
def skipJWs (cs : List Char) : List Char :=
  cs.dropWhile fun c => c = ' ' || c = '\t' || c = '\n' || c = '\r'

def hexDigit (c : Char) : Option Nat :=
  if '0' ≤ c && c ≤ '9' then some (c.toNat - 48)
  else if 'a' ≤ c && c ≤ 'f' then some (c.toNat - 87)
  else if 'A' ≤ c && c ≤ 'F' then some (c.toNat - 55)
  else none

def hex4 (a b c d : Char) : Option Nat := do
  pure ((← hexDigit a) * 4096 + (← hexDigit b) * 256 + (← hexDigit c) * 16 + (← hexDigit d))

def parseJStr (fuel : Nat) (acc : List Char) (cs : List Char) : Option (String × List Char) :=
  match fuel with
  | 0 => none
  | fuel + 1 =>
    match cs with
    | [] => none
    | c :: rest =>
      if c = '"' then some (⟨acc.reverse⟩, rest)
      else if c = '\\' then
        match rest with
        | [] => none
        | e :: rest2 =>
          if e = '"' then parseJStr fuel ('"' :: acc) rest2
          else if e = '\\' then parseJStr fuel ('\\' :: acc) rest2
          else if e = '/' then parseJStr fuel ('/' :: acc) rest2
          else if e = 'b' then parseJStr fuel ('\x08' :: acc) rest2
          else if e = 'f' then parseJStr fuel ('\x0c' :: acc) rest2
          else if e = 'n' then parseJStr fuel ('\n' :: acc) rest2
          else if e = 'r' then parseJStr fuel ('\r' :: acc) rest2
          else if e = 't' then parseJStr fuel ('\t' :: acc) rest2
          else if e = 'u' then
            match rest2 with
            | a :: b :: c2 :: d :: rest3 =>
              match hex4 a b c2 d with
              | none => none
              | some n =>
                if 0xD800 ≤ n && n ≤ 0xDBFF then
                  match rest3 with
                  | '\\' :: 'u' :: a2 :: b2 :: c3 :: d2 :: rest4 =>
                    match hex4 a2 b2 c3 d2 with
                    | some m =>
                      if 0xDC00 ≤ m && m ≤ 0xDFFF then
                        parseJStr fuel
                          (Char.ofNat (0x10000 + (n - 0xD800) * 0x400 + (m - 0xDC00)) :: acc) rest4
                      else parseJStr fuel (Char.ofNat n :: acc) rest3
                    | none => parseJStr fuel (Char.ofNat n :: acc) rest3
                  | _ => parseJStr fuel (Char.ofNat n :: acc) rest3
                else parseJStr fuel (Char.ofNat n :: acc) rest3
            | _ => none
          else none
      else if c.toNat < 0x20 then none
      else parseJStr fuel (c :: acc) rest

def digitsVal (ds : List Char) : Nat :=
  ds.foldl (fun a c => a * 10 + (c.toNat - 48)) 0

def parseJNum (cs : List Char) : Option (ℚ × String × List Char) :=
  let (neg, cs1) :=
    match cs with
    | c :: rest => if c = '-' then (true, rest) else (false, cs)
    | [] => (false, cs)
  let ip := cs1.takeWhile Char.isDigit
  let cs2 := cs1.dropWhile Char.isDigit
  if ip.isEmpty then none
  else if 2 ≤ ip.length && ip.headD ' ' = '0' then none
  else
    let hasFrac := match cs2 with | c :: _ => c = '.' | [] => false
    let fp := if hasFrac then (cs2.drop 1).takeWhile Char.isDigit else []
    let cs3 := if hasFrac then (cs2.drop 1).dropWhile Char.isDigit else cs2
    if hasFrac && fp.isEmpty then none
    else
      let hasExp := match cs3 with | c :: _ => c = 'e' || c = 'E' | [] => false
      let expTail := cs3.drop 1
      let (expNeg, esgn) :=
        match expTail with
        | c :: _ => if c = '+' then (false, 1) else if c = '-' then (true, 1) else (false, 0)
        | [] => (false, 0)
      let ed := if hasExp then (expTail.drop esgn).takeWhile Char.isDigit else []
      let cs4 := if hasExp then (expTail.drop esgn).dropWhile Char.isDigit else cs3
      if hasExp && ed.isEmpty then none
      else
        let base : ℚ := (digitsVal ip : ℚ) + (digitsVal fp : ℚ) / ((10 : ℚ) ^ fp.length)
        let e : ℤ := if expNeg then -(digitsVal ed : ℤ) else (digitsVal ed : ℤ)
        let v : ℚ := (if neg then -base else base) * (10 : ℚ) ^ e
        let consumed := cs.length - cs4.length
        some (v, ⟨cs.take consumed⟩, cs4)

mutual

def parseJVal : Nat → List Char → Option (Json × List Char)
  | 0, _ => none
  | fuel + 1, cs =>
    match cs with
    | [] => none
    | c :: rest =>
      if c = '"' then (parseJStr (rest.length + 1) [] rest).map fun p => (.jstr p.1, p.2)
      else if c = lbrace then
        match skipJWs rest with
        | d :: r2 =>
          if d = rbrace then some (.jobj [], r2)
          else (parseJMembers fuel (skipJWs rest)).map fun p => (.jobj p.1, p.2)
        | [] => none
      else if c = '[' then
        match skipJWs rest with
        | d :: r2 =>
          if d = ']' then some (.jarr [], r2)
          else (parseJItems fuel (skipJWs rest)).map fun p => (.jarr p.1, p.2)
        | [] => none
      else if c = 't' then
        match cs with
        | 't' :: 'r' :: 'u' :: 'e' :: r => some (.jbool true, r)
        | _ => none
      else if c = 'f' then
        match cs with
        | 'f' :: 'a' :: 'l' :: 's' :: 'e' :: r => some (.jbool false, r)
        | _ => none
      else if c = 'n' then
        match cs with
        | 'n' :: 'u' :: 'l' :: 'l' :: r => some (.jnull, r)
        | _ => none
      else (parseJNum cs).map fun p => (.jnum p.1 p.2.1, p.2.2)

def parseJMembers : Nat → List Char → Option (List (String × Json) × List Char)
  | 0, _ => none
  | fuel + 1, cs =>
    match cs with
    | c :: rest =>
      if c = '"' then
        match parseJStr (rest.length + 1) [] rest with
        | some (key, r1) =>
          match skipJWs r1 with
          | ':' :: r2 =>
            match parseJVal fuel (skipJWs r2) with
            | some (v, r3) =>
              match skipJWs r3 with
              | ',' :: r4 =>
                (parseJMembers fuel (skipJWs r4)).map fun p => ((key, v) :: p.1, p.2)
              | d :: r4 => if d = rbrace then some ([(key, v)], r4) else none
              | [] => none
            | none => none
          | _ => none
        | none => none
      else none
    | [] => none

def parseJItems : Nat → List Char → Option (List Json × List Char)
  | 0, _ => none
  | fuel + 1, cs =>
    match parseJVal fuel cs with
    | some (v, r1) =>
      match skipJWs r1 with
      | ',' :: r2 => (parseJItems fuel (skipJWs r2)).map fun p => (v :: p.1, p.2)
      | ']' :: r2 => some ([v], r2)
      | _ => none
    | none => none

end

/-- `json.loads`: parse the whole string (surrounding whitespace allowed),
fail on trailing garbage. -/
def parseJson (s : String) : Option Json :=
  let cs := skipJWs s.data
  match parseJVal (cs.length + 1) cs with
  | some (v, rest) => if (skipJWs rest).isEmpty then some v else none
  | none => none

/-- `dict.get` on the parsed object: with duplicate keys the later entry wins,
as in a Python dict literal. -/
def jGetLast (fields : List (String × Json)) (key : String) : Option Json :=
  ((fields.filter fun p => p.1 == key).getLast?).map fun p => p.2

def jHasKey (fields : List (String × Json)) (key : String) : Bool :=
  fields.any fun p => p.1 == key

/-- `_JSON_BLOCK_RE.search(content)` (`\{.*\}` with DOTALL, greedy): the span
from the first opening brace to the last closing brace, when nonempty. -/
def strBetweenBraces (content : String) : Option String :=
  let cs := content.data
  match cs.findIdx? (· = lbrace), cs.reverse.findIdx? (· = rbrace) with
  | some i, some jr =>
    let j := cs.length - 1 - jr
    if i ≤ j then some ⟨(cs.drop i).take (j - i + 1)⟩ else none
  | _, _ => none

mutual

/-- `repr()` of a decoded JSON value (used by `str()` on containers);
approximates CPython's rendering, which the claims never evaluate on
non-string values. -/
def reprJson : Json → String
  | .jnull => "None"
  | .jbool true => "True"
  | .jbool false => "False"
  | .jnum _ raw => raw
  | .jstr s => ⟨squote :: s.data ++ [squote]⟩
  | .jarr xs => "[" ++ reprJsonList xs ++ "]"
  | .jobj fs => ⟨lbrace :: (reprJsonFields fs).data ++ [rbrace]⟩

def reprJsonList : List Json → String
  | [] => ""
  | [x] => reprJson x
  | x :: xs => reprJson x ++ ", " ++ reprJsonList xs

def reprJsonFields : List (String × Json) → String
  | [] => ""
  | [p] => ⟨squote :: p.1.data ++ [squote]⟩ ++ ": " ++ reprJson p.2
  | p :: ps => ⟨squote :: p.1.data ++ [squote]⟩ ++ ": " ++ reprJson p.2 ++ ", " ++ reprJsonFields ps

end

/-- `str()` of a decoded JSON value. -/
def pyStrJson : Json → String
  | .jstr s => s
  | v => reprJson v

/-- One iteration of the candidate loop in `_extract_json_text`: `json.loads`
the candidate; on a dict containing the key `"text"` produce that value
(`None` → `""`, otherwise `str(value).strip()`); otherwise continue. -/
def tryJsonCandidate (candidate : String) : Option String :=
  match parseJson candidate with
  | some (.jobj fields) =>
    if jHasKey fields "text" then
      some (match jGetLast fields "text" with
            | some .jnull => ""
            | some v => pyStripStr (pyStrJson v)
            | none => "")
    else none
  | _ => none

/-- `_extract_json_text` of `cleanup.py`: try the whole content, then the
greedy brace-matched substring. -/
def extract_json_text (content : String) : Option String :=
  match tryJsonCandidate content with
  | some t => some t
  | none =>
    match strBetweenBraces content with
    | some block => tryJsonCandidate block
    | none => none

/-- The leading-line loop of `_strip_llm_wrapper`: repeatedly discard a
leading blank line or a leading line matching the preamble pattern,
recording whether anything was removed. -/
def dropPreambleLines : List String → Bool → List String × Bool
  | [], removed => ([], removed)
  | l :: ls, removed =>
    let head := pyStripStr l
    if head = "" then dropPreambleLines ls true
    else if preambleMatch head then dropPreambleLines ls true
    else (l :: ls, removed)

def quoteChars : List Char := ['"', squote]

/-- `_strip_llm_wrapper` of `cleanup.py`. -/
def strip_llm_wrapper (content : String) : String :=
  let cleaned := pyStripStr content
  let pr := dropPreambleLines (pySplitlines cleaned) false
  let cleaned := pyStripStr (pyJoinNL pr.1)
  let cs := cleaned.data
  match cs with
  | [] => cleaned
  | c0 :: _ =>
    if pr.2 && decide (2 ≤ cs.length) && decide (cs.getLast? = some c0) &&
        decide (c0 ∈ quoteChars) then
      let inner := pyStripL ((cs.drop 1).dropLast)
      if c0 ∈ inner then cleaned else ⟨inner⟩
    else cleaned

/-- Lines 67–71 of `cleanup.py` (`llm_cleanup`), applied to the message
content: strip it, try the JSON extraction tiers, fall back to the
wrapper stripping. -/
def extract_llm_content (content : String) : String :=
  let cleaned := pyStripStr content
  match extract_json_text cleaned with
  | some extracted => extracted
  | none => strip_llm_wrapper cleaned


/-! ## `config.py`: the configuration snapshot

`TranscribeConfig` in `config.py` defines *no* `backend` field and
`load_config` never reads one, although `engine.py` and `app.py` read
`config.backend`; the possibly-absent attribute is modelled as an
`Option String` (`none` = the attribute does not exist, which is what
`load_config()` actually produces). -/

structure TranscribeConfig where
  base_dir : String
  models_dir : String
  tmp_dir : String
  logs_dir : String
  host : String
  port : Int
  backend : Option String
  model_name : String
  device : String
  compute_type : String
  language : String
  beam_size : Int
  vad_filter : Bool
  word_timestamps : Bool
  temperature : ℚ
  max_duration_s : Int
  cpu_threads : Int
  num_workers : Int
  cleanup_mode : String
  cleanup_llm_base_url : String
  cleanup_llm_model : String
  cleanup_llm_api_key : Option String

/-- Python `override or default` for an optional string (`None` and `""` are
falsy). -/
def pyOr (o : Option String) (d : String) : String :=
  match o with
  | some s => if s = "" then d else s
  | none => d

/-- Python truthiness of an `Optional[str]`. -/
def pyTruthy (o : Option String) : Bool :=
  match o with
  | some s => !(s = "")
  | none => false

/-- Python `a or b` for strings. -/
def pyOrStr (a b : String) : String := if a = "" then b else a

/-- `str.lower()` (ASCII, matching the identifiers involved). -/
def pyLower (s : String) : String := ⟨s.data.map Char.toLower⟩

/-! ## `cleanup.py`: `llm_cleanup` and `apply_cleanup` -/

/-- Outcome of the remote cleanup call in `llm_cleanup`: the `urllib` POST
and the JSON decode of its body are external I/O, summarised by `response`;
`choices_nonempty` is the truthiness of `parsed.get("choices")` and
`content` the extracted `choices[0].message.content` (absent when the
response shapes do not match). -/
structure LlmOutcome where
  response : Except PyError Unit
  choices_nonempty : Bool
  content : Option String

/-- `llm_cleanup` of `cleanup.py` (the raw transcript is only used to build
the outbound request, which is external I/O). -/
def llm_cleanup (o : LlmOutcome) (_text : String) : Except PyError String :=
  match o.response with
  | .error e => .error e
  | .ok _ =>
    if !o.choices_nonempty then .error (.runtimeError "LLM cleanup returned no choices")
    else
      match o.content with
      | none => .error (.runtimeError "LLM cleanup returned empty content")
      | some c =>
        if c = "" then .error (.runtimeError "LLM cleanup returned empty content")
        else .ok (extract_llm_content c)

/-- `apply_cleanup` of `cleanup.py`. -/
def apply_cleanup (o : LlmOutcome) (text : String) (config : TranscribeConfig)
    (mode : Option String) : Except PyError String :=
  let selected := pyLower (pyStripStr (pyOr mode (pyOrStr config.cleanup_mode "basic")))
  if selected = "none" then .ok text
  else if selected = "basic" then .ok (basic_cleanup text)
  else if selected = "llm" then llm_cleanup o text
  else .error (.valueError ("Unknown cleanup mode: " ++ selected))

/-! ## `engine.py`: request-configuration resolution -/

def DEFAULT_BACKEND_MODELS : List (String × String) :=
  [("parakeet-mlx", "mlx-community/parakeet-tdt-0.6b-v3"),
   ("mlx-whisper", "mlx-community/whisper-large-v3-turbo"),
   ("faster-whisper", "large-v3")]

def DEFAULT_BACKEND_DEVICE : List (String × String) :=
  [("parakeet-mlx", "mlx"), ("mlx-whisper", "mlx"), ("faster-whisper", "cpu")]

def DEFAULT_BACKEND_COMPUTE : List (String × String) :=
  [("parakeet-mlx", "mlx"), ("mlx-whisper", "mlx"), ("faster-whisper", "int8")]

/-- `dict.get(key, default)`. -/
def dictGetD (tbl : List (String × String)) (key dflt : String) : String :=
  match tbl.find? fun p => p.1 == key with
  | some p => p.2
  | none => dflt

/-- The attribute access `config.backend`: raises `AttributeError` when the
dataclass lacks the field (which `config.py`'s `TranscribeConfig` does). -/
def configBackendAttr (config : TranscribeConfig) : Except PyError String :=
  match config.backend with
  | some b => .ok b
  | none =>
    .error (.attributeError "\x27TranscribeConfig\x27 object has no attribute \x27backend\x27")

/-- `_resolve_request_config` of `engine.py`.  Note that
`backend_override or config.backend` reads the attribute only when the
override is falsy, while the later comparison `backend != config.backend.lower()`
reads it whenever the override is truthy. -/
def resolve_request_config (config : TranscribeConfig)
    (backend_override model_override device_override compute_override : Option String) :
    Except PyError (String × String × String × String) :=
  let backendE : Except PyError String :=
    match backend_override with
    | some s =>
      if s = "" then (configBackendAttr config).map pyLower
      else .ok (pyLower s)
    | none => (configBackendAttr config).map pyLower
  match backendE with
  | .error e => .error e
  | .ok backend =>
    let model_name := pyOr model_override config.model_name
    let device := pyOr device_override config.device
    let compute_type := pyOr compute_override config.compute_type
    if pyTruthy backend_override then
      match configBackendAttr config with
      | .error e => .error e
      | .ok cb =>
        if backend ≠ pyLower cb then
          let model_name :=
            if model_override = none then dictGetD DEFAULT_BACKEND_MODELS backend model_name
            else model_name
          let device :=
            if device_override = none then dictGetD DEFAULT_BACKEND_DEVICE backend device
            else device
          let compute_type :=
            if compute_override = none then dictGetD DEFAULT_BACKEND_COMPUTE backend compute_type
            else compute_type
          .ok (backend, model_name, device, compute_type)
        else .ok (backend, model_name, device, compute_type)
    else .ok (backend, model_name, device, compute_type)

/-! ## `engine.py`: the model cache (`_load_model`)

Model handles are opaque: a `Nat` identifies the object a library
constructor returned (`none` is Python `None`, which the mlx path caches
when the module lacks `load_model`).  `ensure_dirs` is filesystem I/O and
not modelled. -/

abbrev BackendKey := String × String × String × String

structure BackendLibs where
  parakeet_available : Bool
  parakeet_from_pretrained : String → Except PyError Nat
  mlx_available : Bool
  mlx_has_load_model : Bool
  mlx_load_model : String → Except PyError Nat
  fw_available : Bool
  fw_WhisperModel : String → String → String → Except PyError Nat

structure CacheState where
  cache : List (BackendKey × Option Nat)
  lockHeld : Bool
deriving DecidableEq

def cacheLookup (cache : List (BackendKey × Option Nat)) (key : BackendKey) :
    Option (Option Nat) :=
  match cache.find? fun p => p.1 == key with
  | some p => some p.2
  | none => none

/-- The construction body of `_load_model` — the code inside the `with`
block after the double check: pick the backend branch, construct a handle
(or raise), and insert it into the cache map. -/
def load_model_construct (libs : BackendLibs)
    (backend model_name device compute_type : String)
    (cache : List (BackendKey × Option Nat)) :
    Except PyError (Option Nat × List (BackendKey × Option Nat)) :=
  let key : BackendKey := (backend, model_name, device, compute_type)
  if backend = "parakeet-mlx" then
    if !libs.parakeet_available then
      .error (.runtimeError
        "parakeet-mlx is not installed. Run `pip install parakeet-mlx` in services/transcribe/.venv.")
    else
      match libs.parakeet_from_pretrained model_name with
      | .error e => .error e
      | .ok h => .ok (some h, (key, some h) :: cache)
  else if backend = "mlx-whisper" then
    if !libs.mlx_available then
      .error (.runtimeError
        "mlx-whisper is not installed. Run `pip install mlx-whisper` in services/transcribe/.venv.")
    else if libs.mlx_has_load_model then
      match libs.mlx_load_model model_name with
      | .error e => .error e
      | .ok h => .ok (some h, (key, some h) :: cache)
    else .ok (none, (key, none) :: cache)
  else if backend = "faster-whisper" then
    if !libs.fw_available then
      .error (.runtimeError
        "faster-whisper is not installed. Run `pip install faster-whisper` in services/transcribe/.venv.")
    else
      match libs.fw_WhisperModel model_name device compute_type with
      | .error e => .error e
      | .ok h => .ok (some h, (key, some h) :: cache)
  else .error (.runtimeError ("Unsupported transcription backend: " ++ backend))

/-- `_load_model` of `engine.py`: double-checked locking; the `with` block
releases the lock on every exit path, and a construction failure leaves the
cache map untouched. -/
def load_model (libs : BackendLibs) (backend model_name device compute_type : String)
    (st : CacheState) : Except PyError (Option Nat) × CacheState :=
  let key : BackendKey := (backend, model_name, device, compute_type)
  match cacheLookup st.cache key with
  | some m => (.ok m, st)
  | none =>
    let locked : CacheState := { st with lockHeld := true }
    match cacheLookup locked.cache key with
    | some m => (.ok m, { locked with lockHeld := false })
    | none =>
      match load_model_construct libs backend model_name device compute_type
          locked.cache with
      | .error e => (.error e, { locked with lockHeld := false })
      | .ok (m, cache) => (.ok m, { cache := cache, lockHeld := false })

/-! ## `engine.py`: backend-result extraction and segment normalization -/

mutual

/-- A Python value appearing as a field of a backend result. -/
inductive FVal
  | fnone
  | fstr (s : String)
  | fnum (q : ℚ)
  | fsegs (l : List SegEntry)

/-- One entry of a backend's segment sequence: mapping-shaped, sequence-shaped
(`list`/`tuple`), or anything else (skipped by the normalizer). -/
inductive SegEntry
  | sdict (fields : List (String × FVal))
  | striple (args : List FVal)
  | sother

end

instance : Inhabited FVal := ⟨.fnone⟩

def truthyF : FVal → Bool
  | .fnone => false
  | .fstr s => !(s = "")
  | .fnum q => decide (q ≠ 0)
  | .fsegs l => !l.isEmpty

def isNoneF : FVal → Bool
  | .fnone => true
  | _ => false

/-- Python `a or b`. -/
def pyOrF (a b : FVal) : FVal := if truthyF a then a else b

/-- `dict.get(key)` / `getattr(obj, key, None)` over the modelled fields. -/
def dgetF (fields : List (String × FVal)) (key : String) : FVal :=
  match fields.find? fun p => p.1 == key with
  | some p => p.2
  | none => .fnone

/-- `str()` of a field value; the rendering of non-string values is
approximated (no claim evaluates it on a non-string). -/
def pyStrF : FVal → String
  | .fnone => "None"
  | .fstr s => s
  | .fnum q => toString q.num ++ (if q.den = 1 then "" else "/" ++ toString q.den)
  | .fsegs _ => "[...]"

/-- The shape of a backend transcription result. -/
inductive TResult
  | rstr (s : String)
  | rdict (entries : List (String × FVal))
  | robj (attrs : List (String × FVal))

/-- `_extract_transcript` of `engine.py`.  A dict whose candidate chain is
falsy falls through to the attribute lookups, which all yield `None` on a
dict instance, so the call raises. -/
def extract_transcript : TResult → Except PyError (String × Option String × FVal)
  | .rstr s => .ok (s, none, .fnone)
  | .rdict entries =>
    let text := pyOrF (pyOrF (dgetF entries "text") (dgetF entries "transcript"))
      (dgetF entries "utterance")
    if truthyF text then
      let language := pyOrF (dgetF entries "language") (dgetF entries "lang")
      let segments := pyOrF (pyOrF (dgetF entries "segments") (dgetF entries "timestamps"))
        (dgetF entries "chunks")
      .ok (pyStrF text, if truthyF language then some (pyStrF language) else none, segments)
    else .error (.valueError "Transcription model returned no text")
  | .robj attrs =>
    let text := pyOrF (dgetF attrs "text") (dgetF attrs "transcript")
    if truthyF text then
      let language := pyOrF (dgetF attrs "language") (dgetF attrs "lang")
      let segments := pyOrF (dgetF attrs "segments") (dgetF attrs "timestamps")
      .ok (pyStrF text, if truthyF language then some (pyStrF language) else none, segments)
    else .error (.valueError "Transcription model returned no text")

/-- Python `float(str)` (underscore separators and nonfinite literals are not
modelled). -/
def pyFloatOfString (s : String) : Option ℚ :=
  let cs := pyStripL s.data
  let (neg, cs1) :=
    match cs with
    | c :: rest =>
      if c = '-' then (true, rest) else if c = '+' then (false, rest) else (false, cs)
    | [] => (false, cs)
  let ip := cs1.takeWhile Char.isDigit
  let cs2 := cs1.dropWhile Char.isDigit
  let hasFrac : Bool := match cs2 with | c :: _ => c = '.' | [] => false
  let fp := if hasFrac then (cs2.drop 1).takeWhile Char.isDigit else []
  let cs3 := if hasFrac then (cs2.drop 1).dropWhile Char.isDigit else cs2
  if ip.isEmpty && fp.isEmpty then none
  else
    let hasExp : Bool := match cs3 with | c :: _ => c = 'e' || c = 'E' | [] => false
    let expTail := cs3.drop 1
    let (expNeg, esgn) :=
      match expTail with
      | c :: _ => if c = '+' then (false, 1) else if c = '-' then (true, 1) else (false, 0)
      | [] => (false, 0)
    let ed := if hasExp then (expTail.drop esgn).takeWhile Char.isDigit else []
    let cs4 := if hasExp then (expTail.drop esgn).dropWhile Char.isDigit else cs3
    if hasExp && ed.isEmpty then none
    else if !cs4.isEmpty then none
    else
      let base : ℚ := (digitsVal ip : ℚ) + (digitsVal fp : ℚ) / ((10 : ℚ) ^ fp.length)
      let e : ℤ := if expNeg then -(digitsVal ed : ℤ) else (digitsVal ed : ℤ)
      some ((if neg then -base else base) * (10 : ℚ) ^ e)

/-- Python `float(value)` on a field value. -/
def pyFloatF : FVal → Except PyError ℚ
  | .fnum q => .ok q
  | .fstr s =>
    match pyFloatOfString s with
    | some q => .ok q
    | none => .error (.valueError ("could not convert string to float: " ++ s))
  | .fnone => .error (.typeError "float() argument must be a string or a real number, not NoneType")
  | .fsegs _ => .error (.typeError "float() argument must be a string or a real number, not list")

/-- `float(v) if v is not None else 0.0`. -/
def floatOrZero (v : FVal) : Except PyError ℚ :=
  if isNoneF v then .ok 0 else pyFloatF v

/-- A normalized segment (`end` in the source). -/
structure Segment where
  start : ℚ
  stop : ℚ
  text : String
deriving DecidableEq

/-- The loop of `_normalize_segments`. -/
def segLoop : List SegEntry → Except PyError (List Segment)
  | [] => .ok []
  | e :: rest =>
    match e with
    | .sdict fields =>
      let text := pyOrF (dgetF fields "text") (dgetF fields "transcript")
      if isNoneF text then segLoop rest
      else
        match floatOrZero (dgetF fields "start") with
        | .error err => .error err
        | .ok s =>
          match floatOrZero (dgetF fields "end") with
          | .error err => .error err
          | .ok en =>
            match segLoop rest with
            | .error err => .error err
            | .ok tail => .ok (⟨s, en, pyStripStr (pyStrF text)⟩ :: tail)
    | .striple args =>
      -- `len(segment) >= 3` and the indexing `segment[0..2]`
      match args with
      | a0 :: a1 :: a2 :: _ =>
        if isNoneF a2 then segLoop rest
        else
          match floatOrZero a0 with
          | .error err => .error err
          | .ok s =>
            match floatOrZero a1 with
            | .error err => .error err
            | .ok en =>
              match segLoop rest with
              | .error err => .error err
              | .ok tail => .ok (⟨s, en, pyStripStr (pyStrF a2)⟩ :: tail)
      | _ => segLoop rest
    | .sother => segLoop rest

/-- `_normalize_segments` of `engine.py`: falsy or non-list input yields `[]`. -/
def normalize_segments : FVal → Except PyError (List Segment)
  | .fsegs l => if l.isEmpty then .ok [] else segLoop l
  | _ => .ok []

/-! ## `engine.py`: audio duration and `transcribe_file` -/

/-- The header fields `wave.open` reports: `getnframes()` and `getframerate()`. -/
structure WavInfo where
  frames : Nat
  rate : Nat
deriving DecidableEq

/-- `_wav_duration_seconds` of `engine.py` (on an already-opened header). -/
def wav_duration_seconds (w : WavInfo) : Except PyError ℚ :=
  if w.rate = 0 then .error (.valueError "Audio sample rate is 0")
  else .ok ((w.frames : ℚ) / (w.rate : ℚ))

/-- Python `round(x, 3)` modelled over `ℚ` with round-half-to-even. -/
def pyRound3 (q : ℚ) : ℚ :=
  let x := q * 1000
  let n := ⌊x⌋
  let r : ℤ :=
    if x - n > 1/2 then n + 1
    else if x - n < 1/2 then n
    else if n % 2 = 0 then n else n + 1
  (r : ℚ) / 1000

/-- Observable per-request events of `transcribe_file`. -/
inductive Event
  | tempCreated
  | tempDeleted
  | backendInvoked
deriving DecidableEq

structure AudioInput where
  suffix_is_wav : Bool
  wav_header : Except PyError WavInfo

/-- The ffmpeg conversion step: availability of the tool and, when it runs,
either the produced canonical waveform's header or the final diagnostic
line of its stderr. -/
structure ConvertOutcome where
  ffmpeg_found : Bool
  result : Except String WavInfo

/-- The faster-whisper library calls of `_transcribe_faster_whisper`:
`len(decode_audio(..., sampling_rate=16000))` and `model.transcribe`
(segments with `start`/`end`/`text`, and `info.language`). -/
structure FwRuntime where
  audio_decode : Except PyError Nat
  transcribe : Except PyError (List Segment × Option String)

structure TranscribeEnv where
  libs : BackendLibs
  audio : AudioInput
  conv : ConvertOutcome
  fw : FwRuntime
  run_result : Except PyError TResult
  llm : LlmOutcome

/-- `_convert_to_wav` of `engine.py`: a `.wav` suffix short-circuits;
otherwise ffmpeg writes a temporary artifact (second component `true`). -/
def convert_to_wav (env : TranscribeEnv) :
    Except PyError (Except PyError WavInfo × Bool) :=
  if env.audio.suffix_is_wav then .ok (env.audio.wav_header, false)
  else if !env.conv.ffmpeg_found then
    .error (.runtimeError "ffmpeg is required to decode audio input but was not found in PATH.")
  else
    match env.conv.result with
    | .error detail => .error (.runtimeError ("Audio conversion failed: " ++ detail))
    | .ok wi => .ok (.ok wi, true)

/-- The per-request result envelope (the static echo of config tuning fields
is inlined; wall-clock `processing_time_ms` is modelled as `0`). -/
structure ResultDict where
  text : String
  raw_text : String
  language : String
  duration_s : ℚ
  processing_time_ms : Nat
  model : String
  compute_type : String
  device : String
  cleanup_mode : String
  backend : String
  beam_size : Int
  vad_filter : Bool
  word_timestamps : Bool
  temperature : ℚ
  segments : Option (List Segment)
deriving DecidableEq

/-- `transcribe_file` of `engine.py`.  Returns the result or the raised
exception, the final model-cache state and the ordered list of observable
events (temporary-artifact lifecycle, backend invocation). -/
def transcribe_file (config : TranscribeConfig) (env : TranscribeEnv) (st : CacheState)
    (backend model_name device compute_type language _task _prompt cleanup_mode : Option String)
    (return_segments : Bool) :
    Except PyError ResultDict × CacheState × List Event :=
  match resolve_request_config config backend model_name device compute_type with
  | .error e => (.error e, st, [])
  | .ok (effective_backend, effective_model, effective_device, effective_compute) =>
    match load_model env.libs effective_backend effective_model effective_device
        effective_compute st with
    | (.error e, st1) => (.error e, st1, [])
    | (.ok model, st1) =>
      let branch : Except PyError (String × Option String × FVal × ℚ) × List Event :=
        if effective_backend = "faster-whisper" then
          if model.isNone then (.error (.runtimeError "Faster-whisper model failed to load"), [])
          else if !env.libs.fw_available then
            (.error (.runtimeError
              "faster-whisper is not installed. Run `pip install faster-whisper` in services/transcribe/.venv."), [])
          else
            match env.fw.audio_decode with
            | .error e => (.error e, [])
            | .ok len =>
              let duration : ℚ := (len : ℚ) / 16000
              if duration > (config.max_duration_s : ℚ) then
                (.error (.valueError
                  ("Audio exceeds max duration (" ++ toString config.max_duration_s ++ "s)")), [])
              else
                match env.fw.transcribe with
                | .error e => (.error e, [.backendInvoked])
                | .ok (segs, lang) =>
                  let raw_text := pyStripStr (String.join (segs.map fun s => s.text))
                  let collected : FVal := .fsegs (segs.map fun s =>
                    .sdict [("start", .fnum s.start), ("end", .fnum s.stop),
                            ("text", .fstr (pyStripStr s.text))])
                  (.ok (raw_text, lang, collected, duration), [.backendInvoked])
        else
          match convert_to_wav env with
          | .error e => (.error e, [])
          | .ok (hdr, converted) =>
            let ev0 := if converted then [Event.tempCreated] else []
            let tryResult : Except PyError (String × Option String × FVal × ℚ) × List Event :=
              match hdr with
              | .error e => (.error e, [])
              | .ok wi =>
                match wav_duration_seconds wi with
                | .error e => (.error e, [])
                | .ok duration =>
                  if duration > (config.max_duration_s : ℚ) then
                    (.error (.valueError
                      ("Audio exceeds max duration (" ++ toString config.max_duration_s ++ "s)")), [])
                  else
                    match env.run_result with
                    | .error e => (.error e, [.backendInvoked])
                    | .ok raw =>
                      match extract_transcript raw with
                      | .error e => (.error e, [.backendInvoked])
                      | .ok (text, lang, segv) =>
                        (.ok (pyStripStr text, lang, segv, duration), [.backendInvoked])
            let fin := if converted then [Event.tempDeleted] else []
            (tryResult.1, ev0 ++ tryResult.2 ++ fin)
      match branch with
      | (.error e, evs) => (.error e, st1, evs)
      | (.ok (raw_text, detected_language, segv, duration), evs) =>
        match apply_cleanup env.llm raw_text config cleanup_mode with
        | .error e => (.error e, st1, evs)
        | .ok cleaned =>
          match (if return_segments then (normalize_segments segv).map some else .ok none) with
          | .error e => (.error e, st1, evs)
          | .ok segsOut =>
            (.ok {
              text := cleaned
              raw_text := raw_text
              language := pyOr detected_language (pyOr language config.language)
              duration_s := pyRound3 duration
              processing_time_ms := 0
              model := effective_model
              compute_type := effective_compute
              device := effective_device
              cleanup_mode := pyOr cleanup_mode config.cleanup_mode
              backend := effective_backend
              beam_size := config.beam_size
              vad_filter := config.vad_filter
              word_timestamps := config.word_timestamps
              temperature := config.temperature
              segments := segsOut }, st1, evs)

/-! ## `app.py`: the admission gate

`_handle_transcribe` wraps the backend-invocation phase in
`async with _semaphore` where `_semaphore = asyncio.Semaphore(1)`.
Modelled from the spec: the semaphore itself is standard-library code, so
its documented capacity/FIFO behaviour is modelled as an interleaving
transition system over request identifiers — a request either acquires
immediately (gate free, no waiters) or appends to the wait queue; a
finishing request hands the gate to the queue head, which is thereby
admitted, or returns the permit when nobody waits. -/

structure GateState where
  avail : Nat
  queue : List Nat
  running : List Nat
  arrivedL : List Nat
  admittedL : List Nat

def gateInit : GateState := ⟨1, [], [], [], []⟩

inductive GateStep : GateState → GateState → Prop
  | arriveRun (r : Nat) (s : GateState) (h1 : 0 < s.avail) (hq : s.queue = []) :
      GateStep s
        { s with
          avail := s.avail - 1
          running := s.running ++ [r]
          arrivedL := s.arrivedL ++ [r]
          admittedL := s.admittedL ++ [r] }
  | arriveWait (r : Nat) (s : GateState) (h : s.avail = 0 ∨ s.queue ≠ []) :
      GateStep s
        { s with
          queue := s.queue ++ [r]
          arrivedL := s.arrivedL ++ [r] }
  | finishGrant (r q : Nat) (s : GateState) (l1 l2 qs : List Nat)
      (hr : s.running = l1 ++ r :: l2) (hq : s.queue = q :: qs) :
      GateStep s
        { s with
          running := (l1 ++ l2) ++ [q]
          queue := qs
          admittedL := s.admittedL ++ [q] }
  | finishIdle (r : Nat) (s : GateState) (l1 l2 : List Nat)
      (hr : s.running = l1 ++ r :: l2) (hq : s.queue = []) :
      GateStep s
        { s with
          avail := s.avail + 1
          running := l1 ++ l2 }

inductive GateReachable : GateState → Prop
  | init : GateReachable gateInit
  | step {s t : GateState} : GateReachable s → GateStep s t → GateReachable t

/-! ## Derived predicates used by the theorems -/

/-- Every whitespace character of `l` is a plain space. -/
def SpacesArePlain (l : List Char) : Prop :=
  ∀ c ∈ l, isPySpace c = true → c = ' '

/-- No whitespace character is immediately followed by whitespace. -/
def NoSpaceBeforeSpace (l : List Char) : Prop :=
  List.Chain' (fun a b => isPySpace a = true → isPySpace b = false) l

/-- No whitespace character is immediately followed by whitespace or by one
of the punctuation marks. -/
def NoSpaceBeforeSpaceOrPunct (l : List Char) : Prop :=
  List.Chain' (fun a b => isPySpace a = true → isPySpace b = false ∧ isPunct b = false) l

/-- No whitespace character is immediately followed by a punctuation mark. -/
def NoSpaceBeforePunct (l : List Char) : Prop :=
  List.Chain' (fun a b => isPySpace a = true → isPunct b = false) l

def HeadNotSpace (l : List Char) : Prop :=
  ∀ c, l.head? = some c → isPySpace c = false

def LastNotSpace (l : List Char) : Prop :=
  ∀ c, l.getLast? = some c → isPySpace c = false

/-- The canonical form that `basic_cleanup` produces and fixes. -/
def CleanCanon (l : List Char) : Prop :=
  SpacesArePlain l ∧ NoSpaceBeforeSpaceOrPunct l ∧ HeadNotSpace l ∧ LastNotSpace l

/-- The first truthy value of a candidate list (how the spec reads the
`a or b or c` candidate chains). -/
def firstTruthyF : List FVal → Option FVal
  | [] => none
  | v :: rest => if truthyF v then some v else firstTruthyF rest

/-- A bound value the claim's inputs may carry: absent or numeric. -/
def boundOkB : FVal → Bool
  | .fnone => true
  | .fnum _ => true
  | _ => false

/-- Entries on which `float()` cannot raise: malformed ones are skipped and
text-less ones dropped before any conversion. -/
def goodEntryB : SegEntry → Bool
  | .sdict fields =>
    isNoneF (pyOrF (dgetF fields "text") (dgetF fields "transcript")) ||
      (boundOkB (dgetF fields "start") && boundOkB (dgetF fields "end"))
  | .striple (a0 :: a1 :: a2 :: _) =>
    isNoneF a2 || (boundOkB a0 && boundOkB a1)
  | .striple _ => true
  | .sother => true

/-- The numeric value of a bound (`0` when absent). -/
def numValD : FVal → ℚ
  | .fnum q => q
  | _ => 0

/-- The per-entry canonicalization described by the spec: drop entries with
no text value, default missing bounds to `0.0`, strip the text. -/
def canonEntry : SegEntry → Option Segment
  | .sdict fields =>
    if isNoneF (pyOrF (dgetF fields "text") (dgetF fields "transcript")) then none
    else
      some ⟨numValD (dgetF fields "start"), numValD (dgetF fields "end"),
        pyStripStr (pyStrF (pyOrF (dgetF fields "text") (dgetF fields "transcript")))⟩
  | .striple (a0 :: a1 :: a2 :: _) =>
    if isNoneF a2 then none
    else some ⟨numValD a0, numValD a1, pyStripStr (pyStrF a2)⟩
  | .striple _ => none
  | .sother => none

/-! ## Concrete instances used by witnesses -/

/-- The configuration that `load_config()` builds with no config file and no
environment overrides; there is no `backend` field to populate. -/
def defaultRuntimeConfig : TranscribeConfig where
  base_dir := "~/.tron/transcribe"
  models_dir := "~/.tron/transcribe/models"
  tmp_dir := "~/.tron/transcribe/tmp"
  logs_dir := "~/.tron/transcribe/logs"
  host := "127.0.0.1"
  port := 8787
  backend := none
  model_name := "large-v3"
  device := "cpu"
  compute_type := "int8"
  language := "en"
  beam_size := 5
  vad_filter := true
  word_timestamps := false
  temperature := 0
  max_duration_s := 120
  cpu_threads := 0
  num_workers := 1
  cleanup_mode := "basic"
  cleanup_llm_base_url := "http://127.0.0.1:11434/v1"
  cleanup_llm_model := "llama3.1:8b"
  cleanup_llm_api_key := none

/-- The same snapshot with the `backend` attribute present (as the test
fixtures monkey-patch it), to exercise the resolution logic itself. -/
def patchedConfig (b : String) : TranscribeConfig :=
  { defaultRuntimeConfig with backend := some b }

/-- An LLM outcome that plays no role in a request. -/
def noopLlm : LlmOutcome where
  response := .ok ()
  choices_nonempty := true
  content := some "ok"

/-- Backend libraries with every optional dependency missing. -/
def unavailableLibs : BackendLibs where
  parakeet_available := false
  parakeet_from_pretrained := fun _ => .error (.runtimeError "load failed")
  mlx_available := false
  mlx_has_load_model := false
  mlx_load_model := fun _ => .error (.runtimeError "load failed")
  fw_available := false
  fw_WhisperModel := fun _ _ _ => .error (.runtimeError "load failed")

/-- Backend libraries with every dependency present and loading successfully. -/
def availableLibs : BackendLibs where
  parakeet_available := true
  parakeet_from_pretrained := fun _ => .ok 1
  mlx_available := true
  mlx_has_load_model := true
  mlx_load_model := fun _ => .ok 2
  fw_available := true
  fw_WhisperModel := fun _ _ _ => .ok 3

/-- A request environment over a 2-second canonical waveform (32000 frames at
16000 Hz) whose backend would return the transcript `"hello"`. -/
def stubEnv : TranscribeEnv where
  libs := availableLibs
  audio := { suffix_is_wav := true, wav_header := .ok ⟨32000, 16000⟩ }
  conv := { ffmpeg_found := true, result := .ok ⟨32000, 16000⟩ }
  fw := { audio_decode := .ok 32000, transcribe := .ok ([], none) }
  run_result := .ok (.rstr "hello")
  llm := noopLlm

/-! ## Lemmas: `basic_cleanup` (claim C5) -/

theorem punct_not_space {c : Char} (h : isPunct c = true) : isPySpace c = false := by
  simp only [isPunct, Bool.or_eq_true, decide_eq_true_eq] at h
  rcases h with ((((h | h) | h) | h) | h) | h <;> subst h <;> decide

theorem headNotSpace_dropWhile (l : List Char) :
    HeadNotSpace (l.dropWhile isPySpace) := by
  intro c hc
  have h := List.head?_dropWhile_not isPySpace l
  rw [hc] at h
  exact h

theorem pyStripL_eq_self {l : List Char} (h1 : HeadNotSpace l) (h2 : LastNotSpace l) :
    pyStripL l = l := by
  unfold pyStripL
  have d1 : l.dropWhile isPySpace = l := by
    cases l with
    | nil => rfl
    | cons c rest => simp [List.dropWhile_cons, h1 c rfl]
  rw [d1]
  have d2 : l.reverse.dropWhile isPySpace = l.reverse := by
    cases hr : l.reverse with
    | nil => rfl
    | cons c rest =>
      have hc : l.getLast? = some c := by
        rw [List.getLast?_eq_head?_reverse, hr]; rfl
      simp [List.dropWhile_cons, h2 c hc]
  rw [d2, List.reverse_reverse]

theorem pyStripL_headNotSpace (l : List Char) : HeadNotSpace (pyStripL l) := by
  intro c hc
  unfold pyStripL at hc
  rw [List.head?_reverse] at hc
  obtain ⟨t, ht⟩ := List.dropWhile_suffix (l := (l.dropWhile isPySpace).reverse) isPySpace
  have hg : (l.dropWhile isPySpace).reverse.getLast? = some c := by
    rw [← ht, List.getLast?_append, hc]; rfl
  rw [List.getLast?_reverse] at hg
  exact headNotSpace_dropWhile l c hg

theorem pyStripL_lastNotSpace (l : List Char) : LastNotSpace (pyStripL l) := by
  intro c hc
  unfold pyStripL at hc
  rw [List.getLast?_reverse] at hc
  exact headNotSpace_dropWhile (l.dropWhile isPySpace).reverse c hc

theorem collapseAux_spaces (l : List Char) :
    ∀ b, SpacesArePlain (collapseAux b l) := by
  induction l with
  | nil => intro b c hc _; simp [collapseAux] at hc
  | cons x rest ih =>
    intro b c hc hsp
    simp only [collapseAux] at hc
    by_cases hx : isPySpace x = true
    · rw [if_pos hx] at hc
      cases b with
      | true => exact ih true c hc hsp
      | false =>
        rw [if_neg Bool.false_ne_true] at hc
        rcases List.mem_cons.mp hc with h | h
        · exact h
        · exact ih true c h hsp
    · rw [if_neg hx] at hc
      rcases List.mem_cons.mp hc with h | h
      · subst h; exact absurd hsp hx
      · exact ih false c h hsp

theorem collapseAux_chain (l : List Char) :
    NoSpaceBeforeSpace (collapseAux false l) ∧ NoSpaceBeforeSpace (collapseAux true l) ∧
      HeadNotSpace (collapseAux true l) := by
  induction l with
  | nil =>
    refine ⟨List.chain'_nil, List.chain'_nil, ?_⟩
    intro c hc; simp [collapseAux] at hc
  | cons x rest ih =>
    obtain ⟨ihf, iht, ihh⟩ := ih
    by_cases hx : isPySpace x = true
    · have e1 : collapseAux false (x :: rest) = ' ' :: collapseAux true rest := by
        simp [collapseAux, hx]
      have e2 : collapseAux true (x :: rest) = collapseAux true rest := by
        simp [collapseAux, hx]
      refine ⟨?_, ?_, ?_⟩
      · rw [e1]
        exact List.chain'_cons'.mpr ⟨fun y hy _ => ihh y (Option.mem_def.mp hy), iht⟩
      · rw [e2]; exact iht
      · rw [e2]; exact ihh
    · have hx' : isPySpace x = false := by simpa using hx
      have e1 : collapseAux false (x :: rest) = x :: collapseAux false rest := by
        simp [collapseAux, hx']
      have e2 : collapseAux true (x :: rest) = x :: collapseAux false rest := by
        simp [collapseAux, hx']
      refine ⟨?_, ?_, ?_⟩
      · rw [e1]
        exact List.chain'_cons'.mpr ⟨fun y _ hsp => absurd hsp (by simp [hx']), ihf⟩
      · rw [e2]
        exact List.chain'_cons'.mpr ⟨fun y _ hsp => absurd hsp (by simp [hx']), ihf⟩
      · rw [e2]
        intro c hc
        simp only [List.head?_cons, Option.some.injEq] at hc
        exact hc ▸ hx'

theorem collapseAux_eq_nil (l : List Char) :
    ∀ b, collapseAux b l = [] → ∀ c ∈ l, isPySpace c = true := by
  induction l with
  | nil => intro b _ c hc; simp at hc
  | cons x rest ih =>
    intro b hb c hc
    simp only [collapseAux] at hb
    by_cases hx : isPySpace x = true
    · rw [if_pos hx] at hb
      cases b with
      | true =>
        rcases List.mem_cons.mp hc with h | h
        · exact h ▸ hx
        · exact ih true hb c h
      | false => rw [if_neg Bool.false_ne_true] at hb; exact absurd hb (by simp)
    · rw [if_neg hx] at hb; exact absurd hb (by simp)

theorem collapseAux_lastNotSpace (l : List Char) :
    ∀ b, LastNotSpace l → LastNotSpace (collapseAux b l) := by
  induction l with
  | nil => intro b _ c hc; simp [collapseAux] at hc
  | cons x rest ih =>
    intro b hl c hc
    cases hrest : rest with
    | nil =>
      subst hrest
      have hx : isPySpace x = false := hl x rfl
      have e : ∀ b, collapseAux b [x] = [x] := by intro b; simp [collapseAux, hx]
      rw [e b] at hc
      simp only [List.getLast?_cons, List.getLast?_nil, Option.getD_none,
        Option.some.injEq] at hc
      exact hc ▸ hx
    | cons y t =>
      subst hrest
      have hltail : LastNotSpace (y :: t) := by
        intro d hd
        exact hl d (by rw [List.getLast?_cons_cons]; exact hd)
      have nonnil : ∀ bb, collapseAux bb (y :: t) = [] → False := by
        intro bb hnil
        obtain ⟨d, hd⟩ : ∃ d, (y :: t).getLast? = some d :=
          ⟨(y :: t).getLast (by simp), List.getLast?_eq_getLast _ (by simp)⟩
        have hds : isPySpace d = false := hltail d hd
        have hdm : d ∈ y :: t := by
          rw [List.getLast?_eq_getElem?] at hd
          exact List.getElem?_mem hd
        rw [collapseAux_eq_nil (y :: t) bb hnil d hdm] at hds
        exact absurd hds (by simp)
      by_cases hx : isPySpace x = true
      · cases b with
        | true =>
          have e : collapseAux true (x :: y :: t) = collapseAux true (y :: t) := by
            simp [collapseAux, hx]
          rw [e] at hc
          exact ih true hltail c hc
        | false =>
          have e : collapseAux false (x :: y :: t) = ' ' :: collapseAux true (y :: t) := by
            simp [collapseAux, hx]
          rw [e] at hc
          cases hM : collapseAux true (y :: t) with
          | nil => exact absurd hM (fun h => nonnil true h)
          | cons m M =>
            rw [hM, List.getLast?_cons_cons] at hc
            exact ih true hltail c (by rw [hM]; exact hc)
      · have hx' : isPySpace x = false := by simpa using hx
        have e : collapseAux b (x :: y :: t) = x :: collapseAux false (y :: t) := by
          cases b <;> simp [collapseAux, hx']
        rw [e] at hc
        cases hM : collapseAux false (y :: t) with
        | nil => exact absurd hM (fun h => nonnil false h)
        | cons m M =>
          rw [hM, List.getLast?_cons_cons] at hc
          exact ih false hltail c (by rw [hM]; exact hc)

theorem collapseAux_headNotSpace (l : List Char) (h : HeadNotSpace l) :
    HeadNotSpace (collapseAux false l) := by
  cases l with
  | nil => intro c hc; simp [collapseAux] at hc
  | cons x rest =>
    have hx := h x rfl
    intro c hc
    rw [show collapseAux false (x :: rest) = x :: collapseAux false rest by
      simp [collapseAux, hx]] at hc
    simp only [List.head?_cons, Option.some.injEq] at hc
    exact hc ▸ hx

theorem collapseAux_eq_self {l : List Char} (hsp : SpacesArePlain l)
    (hch : NoSpaceBeforeSpace l) :
    collapseAux false l = l ∧ (HeadNotSpace l → collapseAux true l = l) := by
  induction l with
  | nil => exact ⟨rfl, fun _ => rfl⟩
  | cons x rest ih =>
    have hsp' : SpacesArePlain rest := fun c hc => hsp c (List.mem_cons_of_mem _ hc)
    have hch' : NoSpaceBeforeSpace rest := (List.chain'_cons'.mp hch).2
    obtain ⟨ihf, iht⟩ := ih hsp' hch'
    by_cases hx : isPySpace x = true
    · have hx' : x = ' ' := hsp x (by simp) hx
      have hrest : HeadNotSpace rest := by
        intro c hc
        exact (List.chain'_cons'.mp hch).1 c (Option.mem_def.mpr hc) hx
      constructor
      · have e : collapseAux false (x :: rest) = ' ' :: collapseAux true rest := by
          simp [collapseAux, hx]
        rw [e, iht hrest, ← hx']
      · intro hhead
        exact absurd hx (by simp [hhead x rfl])
    · have hx' : isPySpace x = false := by simpa using hx
      have e1 : collapseAux false (x :: rest) = x :: collapseAux false rest := by
        simp [collapseAux, hx']
      have e2 : collapseAux true (x :: rest) = x :: collapseAux false rest := by
        simp [collapseAux, hx']
      exact ⟨by rw [e1, ihf], fun _ => by rw [e2, ihf]⟩

theorem spAux_eq_append {l : List Char} (hch : NoSpaceBeforePunct l) :
    ∀ pending, (∀ c, l.head? = some c → isPunct c = true → pending = []) →
      spAux pending l = pending ++ l := by
  induction l with
  | nil => intro pending _; simp [spAux]
  | cons x rest ih =>
    intro pending hp
    have hch' : NoSpaceBeforePunct rest := (List.chain'_cons'.mp hch).2
    by_cases hx : isPySpace x = true
    · have e : spAux pending (x :: rest) = spAux (pending ++ [x]) rest := by
        simp [spAux, hx]
      rw [e, ih hch' (pending ++ [x]) ?_]
      · simp
      · intro c hc hpunct
        have := (List.chain'_cons'.mp hch).1 c (Option.mem_def.mpr hc) hx
        exact absurd hpunct (by simp [this])
    · have hx' : isPySpace x = false := by simpa using hx
      by_cases hpx : isPunct x = true
      · have hpend : pending = [] := hp x rfl hpx
        subst hpend
        have e : spAux [] (x :: rest) = x :: spAux [] rest := by
          simp [spAux, hx']
        rw [e, ih hch' [] (fun _ _ _ => rfl)]
        simp
      · have e : spAux pending (x :: rest) = pending ++ x :: spAux [] rest := by
          simp [spAux, hx', hpx]
        rw [e, ih hch' [] (fun _ _ _ => rfl)]
        simp

theorem spAux_head (l : List Char) (h : HeadNotSpace l) :
    HeadNotSpace (spAux [] l) := by
  cases l with
  | nil => intro c hc; simp [spAux] at hc
  | cons x rest =>
    have hx := h x rfl
    intro c hc
    rw [show spAux [] (x :: rest) = x :: spAux [] rest by simp [spAux, hx]] at hc
    simp only [List.head?_cons, Option.some.injEq] at hc
    exact hc ▸ hx

theorem spAux_props : ∀ (n : Nat) (l : List Char), l.length ≤ n →
    SpacesArePlain l → NoSpaceBeforeSpace l → LastNotSpace l →
    SpacesArePlain (spAux [] l) ∧ NoSpaceBeforeSpaceOrPunct (spAux [] l) ∧
      LastNotSpace (spAux [] l) := by
  intro n
  induction n with
  | zero =>
    intro l hl _ _ _
    have : l = [] := List.length_eq_zero.mp (Nat.le_zero.mp hl)
    subst this
    exact ⟨fun c hc _ => absurd hc (by simp [spAux]), List.chain'_nil,
      fun c hc => absurd hc (by simp [spAux])⟩
  | succ n ih =>
    intro l hl hsp hch hlast
    cases l with
    | nil =>
      exact ⟨fun c hc _ => absurd hc (by simp [spAux]), List.chain'_nil,
        fun c hc => absurd hc (by simp [spAux])⟩
    | cons x rest =>
      by_cases hx : isPySpace x = true
      · -- leading whitespace: the string cannot end here, and by the chain
        -- the next character is not whitespace
        have hx' : x = ' ' := hsp x (by simp) hx
        cases hrest : rest with
        | nil =>
          subst hrest
          exact absurd (hlast x rfl) (by simp [hx])
        | cons e1 t =>
          subst hrest
          have he1 : isPySpace e1 = false :=
            (List.chain'_cons'.mp hch).1 e1 (by simp) hx
          have hspt : SpacesArePlain t := fun c hc =>
            hsp c (List.mem_cons_of_mem _ (List.mem_cons_of_mem _ hc))
          have hcht : NoSpaceBeforeSpace t :=
            (List.chain'_cons'.mp (List.chain'_cons'.mp hch).2).2
          have hlt : LastNotSpace t := by
            intro d hd
            cases t with
            | nil => simp at hd
            | cons u v =>
              exact hlast d (by rw [List.getLast?_cons_cons, List.getLast?_cons_cons]; exact hd)
          have hlen : t.length ≤ n := by simp at hl; omega
          obtain ⟨P1, P2, P3⟩ := ih t hlen hspt hcht hlt
          have estep : spAux [] (x :: e1 :: t) = spAux [x] (e1 :: t) := by
            simp [spAux, hx]
          by_cases hpe : isPunct e1 = true
          · have e2 : spAux [x] (e1 :: t) = e1 :: spAux [] t := by
              simp [spAux, he1, hpe]
            rw [estep, e2]
            have he1s : isPySpace e1 = false := punct_not_space hpe
            refine ⟨?_, ?_, ?_⟩
            · intro c hc hspc
              rcases List.mem_cons.mp hc with h | h
              · subst h; exact absurd hspc (by simp [he1s])
              · exact P1 c h hspc
            · exact List.chain'_cons'.mpr
                ⟨fun y _ hspe => absurd hspe (by simp [he1s]), P2⟩
            · intro c hc
              cases hM : spAux [] t with
              | nil =>
                rw [hM] at hc
                simp only [List.getLast?_cons, List.getLast?_nil, Option.getD_none,
                  Option.some.injEq] at hc
                exact hc ▸ he1s
              | cons m M =>
                rw [hM, List.getLast?_cons_cons] at hc
                exact P3 c (by rw [hM]; exact hc)
          · have e2 : spAux [x] (e1 :: t) = x :: e1 :: spAux [] t := by
              simp [spAux, he1, hpe]
            rw [estep, e2]
            refine ⟨?_, ?_, ?_⟩
            · intro c hc hspc
              rcases List.mem_cons.mp hc with h | h
              · subst h; exact hx'
              · rcases List.mem_cons.mp h with h2 | h2
                · subst h2; exact absurd hspc (by simp [he1])
                · exact P1 c h2 hspc
            · refine List.chain'_cons'.mpr ⟨?_, ?_⟩
              · intro y hy _
                simp only [List.head?_cons, Option.mem_def, Option.some.injEq] at hy
                subst hy
                refine ⟨he1, by simpa using hpe⟩
              · exact List.chain'_cons'.mpr
                  ⟨fun y _ hspe => absurd hspe (by simp [he1]), P2⟩
            · intro c hc
              rw [List.getLast?_cons_cons] at hc
              cases hM : spAux [] t with
              | nil =>
                rw [hM] at hc
                simp only [List.getLast?_cons, List.getLast?_nil, Option.getD_none,
                  Option.some.injEq] at hc
                exact hc ▸ he1
              | cons m M =>
                rw [hM, List.getLast?_cons_cons] at hc
                exact P3 c (by rw [hM]; exact hc)
      · have hx' : isPySpace x = false := by simpa using hx
        have e : spAux [] (x :: rest) = x :: spAux [] rest := by
          simp [spAux, hx']
        have hspr : SpacesArePlain rest := fun c hc =>
          hsp c (List.mem_cons_of_mem _ hc)
        have hchr : NoSpaceBeforeSpace rest := (List.chain'_cons'.mp hch).2
        have hlr : LastNotSpace rest := by
          intro d hd
          cases rest with
          | nil => simp at hd
          | cons u v => exact hlast d (by rw [List.getLast?_cons_cons]; exact hd)
        have hlen : rest.length ≤ n := by simp at hl; omega
        obtain ⟨P1, P2, P3⟩ := ih rest hlen hspr hchr hlr
        rw [e]
        refine ⟨?_, ?_, ?_⟩
        · intro c hc hspc
          rcases List.mem_cons.mp hc with h | h
          · subst h; exact absurd hspc (by simp [hx'])
          · exact P1 c h hspc
        · exact List.chain'_cons'.mpr
            ⟨fun y _ hspx => absurd hspx (by simp [hx']), P2⟩
        · intro c hc
          cases hM : spAux [] rest with
          | nil =>
            rw [hM] at hc
            simp only [List.getLast?_cons, List.getLast?_nil, Option.getD_none,
              Option.some.injEq] at hc
            exact hc ▸ hx'
          | cons m M =>
            rw [hM, List.getLast?_cons_cons] at hc
            exact P3 c (by rw [hM]; exact hc)

theorem basicCleanupL_canon (l : List Char) : CleanCanon (basicCleanupL l) := by
  unfold basicCleanupL
  have h1h := pyStripL_headNotSpace l
  have h1l := pyStripL_lastNotSpace l
  have c2sp := collapseAux_spaces (pyStripL l) false
  have c2ch := (collapseAux_chain (pyStripL l)).1
  have c2h := collapseAux_headNotSpace (pyStripL l) h1h
  have c2l := collapseAux_lastNotSpace (pyStripL l) false h1l
  obtain ⟨P1, P2, P3⟩ :=
    spAux_props (collapseAux false (pyStripL l)).length (collapseAux false (pyStripL l))
      le_rfl c2sp c2ch c2l
  exact ⟨P1, P2, spAux_head _ c2h, P3⟩

theorem basicCleanupL_fix {l : List Char} (h : CleanCanon l) : basicCleanupL l = l := by
  obtain ⟨hsp, hch, hh, hl⟩ := h
  unfold basicCleanupL
  rw [pyStripL_eq_self hh hl]
  have hchSS : NoSpaceBeforeSpace l := hch.imp fun _ _ h hsp => (h hsp).1
  rw [(collapseAux_eq_self hsp hchSS).1]
  have hchP : NoSpaceBeforePunct l := hch.imp fun _ _ h hsp => (h hsp).2
  simpa using spAux_eq_append hchP [] (fun _ _ _ => rfl)

theorem basic_cleanup_idem (t : String) :
    basic_cleanup (basic_cleanup t) = basic_cleanup t := by
  unfold basic_cleanup
  congr 1
  exact basicCleanupL_fix (basicCleanupL_canon t.data)

/-- C5: basic cleanup is idempotent — `clean(t, "basic")` trims, collapses
whitespace runs and drops whitespace before the fixed punctuation set, and
`clean(clean(t, "basic"), "basic") = clean(t, "basic")` for every string
`t`. -/
theorem claim_C5_basic_cleanup_idempotent (t : String) :
    basic_cleanup (basic_cleanup t) = basic_cleanup t ∧
      ∀ (o : LlmOutcome) (cfg : TranscribeConfig),
        apply_cleanup o t cfg (some "basic") = .ok (basic_cleanup t) := by
  refine ⟨basic_cleanup_idem t, fun o cfg => rfl⟩

/-- C6 counterexample: the literal mode name `"NONE"` lies outside
`{none, basic, llm}`, yet `apply_cleanup` returns the text (identity path)
instead of raising, because mode names are trimmed and lowercased first. -/
theorem claim_C6_counterexample :
    apply_cleanup noopLlm "a  b" defaultRuntimeConfig (some "NONE") = .ok "a  b" ∧
      ("NONE" : String) ∉ (["none", "basic", "llm"] : List String) := by
  exact ⟨rfl, by decide⟩

/-- C6 (amended): `apply_cleanup` normalizes an explicitly given non-empty
mode by trimming and lowercasing; `clean(t, "none")` is the identity for
every `t`; a normalized mode outside `{none, basic, llm}` raises the
unknown-cleanup-mode `ValueError`; an empty or omitted mode falls back to
the configured default and then to `"basic"`. -/
theorem claim_C6_cleanup_mode_dispatch (o : LlmOutcome) (cfg : TranscribeConfig)
    (t : String) :
    (apply_cleanup o t cfg (some "none") = .ok t) ∧
    (∀ s : String, s ≠ "" →
      (pyLower (pyStripStr s) = "none" → apply_cleanup o t cfg (some s) = .ok t) ∧
      (pyLower (pyStripStr s) = "basic" →
        apply_cleanup o t cfg (some s) = .ok (basic_cleanup t)) ∧
      (pyLower (pyStripStr s) = "llm" → apply_cleanup o t cfg (some s) = llm_cleanup o t) ∧
      (pyLower (pyStripStr s) ∉ (["none", "basic", "llm"] : List String) →
        apply_cleanup o t cfg (some s) =
          .error (.valueError ("Unknown cleanup mode: " ++ pyLower (pyStripStr s))))) ∧
    (cfg.cleanup_mode = "" → apply_cleanup o t cfg none = .ok (basic_cleanup t)) := by
  refine ⟨rfl, ?_, ?_⟩
  · intro s hs
    have hOr : pyOr (some s) (pyOrStr cfg.cleanup_mode "basic") = s := by
      simp [pyOr, hs]
    refine ⟨?_, ?_, ?_, ?_⟩
    · intro hsel
      simp only [apply_cleanup, hOr, hsel]
      simp
    · intro hsel
      simp only [apply_cleanup, hOr, hsel]
      simp
    · intro hsel
      simp only [apply_cleanup, hOr, hsel]
      simp
    · intro hsel
      simp only [List.mem_cons, List.mem_singleton] at hsel
      push_neg at hsel
      obtain ⟨h1, h2, h3⟩ := hsel
      simp only [apply_cleanup, hOr]
      rw [if_neg h1, if_neg h2, if_neg h3.1]
  · intro hcm
    simp only [apply_cleanup, hcm]
    rfl

theorem firstTruthy2 (a b : FVal) :
    (∀ v, firstTruthyF [a, b] = some v → pyOrF a b = v ∧ truthyF v = true) ∧
      (firstTruthyF [a, b] = none → truthyF (pyOrF a b) = false) := by
  rcases ha : truthyF a <;> rcases hb : truthyF b <;>
    simp [firstTruthyF, pyOrF, ha, hb]

theorem firstTruthy3 (a b c : FVal) :
    (∀ v, firstTruthyF [a, b, c] = some v →
        pyOrF (pyOrF a b) c = v ∧ truthyF v = true) ∧
      (firstTruthyF [a, b, c] = none → truthyF (pyOrF (pyOrF a b) c) = false) := by
  rcases ha : truthyF a <;> rcases hb : truthyF b <;> rcases hc : truthyF c <;>
    simp [firstTruthyF, pyOrF, ha, hb, hc]

theorem langValue (l1 l2 : FVal) :
    (if truthyF (pyOrF l1 l2) then some (pyStrF (pyOrF l1 l2)) else none) =
      (firstTruthyF [l1, l2]).map pyStrF := by
  rcases h : firstTruthyF [l1, l2] with _ | v
  · rw [if_neg]
    · rfl
    · simp [(firstTruthy2 l1 l2).2 h]
  · obtain ⟨he, ht⟩ := (firstTruthy2 l1 l2).1 v h
    rw [he, if_pos (by simp [ht])]
    rfl

/-- C7 counterexample: an attribute-shaped result whose only text-bearing
field is `utterance` makes extraction fail, although the claim's candidate
list `text/transcript/utterance` would have produced `"hi"` — the attribute
path of `_extract_transcript` only consults `text` and `transcript`. -/
theorem claim_C7_counterexample :
    extract_transcript (.robj [("utterance", .fstr "hi")]) =
      .error (.valueError "Transcription model returned no text") := rfl

/-- C7 (amended): extraction returns a plain string result as the text; for
mapping-shaped results the text comes from the first truthy candidate among
`text`/`transcript`/`utterance`, while for attribute-shaped results the
candidates are `text`/`transcript` only; language comes from
`language`/`lang`; segments from `segments`/`timestamps`(/`chunks` for
mappings); when no text candidate is truthy, the call fails with the
empty-transcript error instead of returning a result. -/
theorem claim_C7_transcript_extraction (s : String)
    (entries attrs : List (String × FVal)) :
    (extract_transcript (.rstr s) = .ok (s, none, .fnone)) ∧
    (∀ v, firstTruthyF [dgetF entries "text", dgetF entries "transcript",
        dgetF entries "utterance"] = some v →
      extract_transcript (.rdict entries) =
        .ok (pyStrF v,
          (firstTruthyF [dgetF entries "language", dgetF entries "lang"]).map pyStrF,
          pyOrF (pyOrF (dgetF entries "segments") (dgetF entries "timestamps"))
            (dgetF entries "chunks"))) ∧
    (firstTruthyF [dgetF entries "text", dgetF entries "transcript",
        dgetF entries "utterance"] = none →
      extract_transcript (.rdict entries) =
        .error (.valueError "Transcription model returned no text")) ∧
    (∀ v, firstTruthyF [dgetF attrs "text", dgetF attrs "transcript"] = some v →
      extract_transcript (.robj attrs) =
        .ok (pyStrF v,
          (firstTruthyF [dgetF attrs "language", dgetF attrs "lang"]).map pyStrF,
          pyOrF (dgetF attrs "segments") (dgetF attrs "timestamps"))) ∧
    (firstTruthyF [dgetF attrs "text", dgetF attrs "transcript"] = none →
      extract_transcript (.robj attrs) =
        .error (.valueError "Transcription model returned no text")) := by
  refine ⟨rfl, ?_, ?_, ?_, ?_⟩
  · intro v hv
    obtain ⟨he, ht⟩ := (firstTruthy3 _ _ _).1 v hv
    simp only [extract_transcript, he, ht, if_true]
    rw [← he, langValue]
  · intro hnone
    have hf := (firstTruthy3 _ _ _).2 hnone
    simp only [extract_transcript, hf]
    rfl
  · intro v hv
    obtain ⟨he, ht⟩ := (firstTruthy2 _ _).1 v hv
    simp only [extract_transcript, he, ht, if_true]
    rw [← he, langValue]
  · intro hnone
    have hf := (firstTruthy2 _ _).2 hnone
    simp only [extract_transcript, hf]
    rfl

/-- C7 witness: a mapping-shaped result carrying only `transcript`
extracts that value. -/
theorem claim_C7_witness :
    extract_transcript (.rdict [("transcript", .fstr "hey")]) =
      .ok ("hey", none, .fnone) := by
  have h := (claim_C7_transcript_extraction "" [("transcript", .fstr "hey")] []).2.1
    (.fstr "hey") rfl
  exact h

theorem floatOrZero_of_boundOk {v : FVal} (h : boundOkB v = true) :
    floatOrZero v = .ok (numValD v) := by
  cases v <;> simp_all [boundOkB, floatOrZero, numValD, isNoneF, pyFloatF]

theorem segLoop_eq (l : List SegEntry) (h : ∀ e ∈ l, goodEntryB e = true) :
    segLoop l = .ok (l.filterMap canonEntry) := by
  induction l with
  | nil => rfl
  | cons e rest ih =>
    have he := h e (by simp)
    have hrest : ∀ x ∈ rest, goodEntryB x = true :=
      fun x hx => h x (List.mem_cons_of_mem _ hx)
    cases e with
    | sother => simp [segLoop, canonEntry, List.filterMap_cons, ih hrest]
    | sdict fields =>
      by_cases ht :
          isNoneF (pyOrF (dgetF fields "text") (dgetF fields "transcript")) = true
      · simp [segLoop, canonEntry, ht, List.filterMap_cons, ih hrest]
      · simp only [goodEntryB, Bool.or_eq_true, Bool.and_eq_true] at he
        rcases he with he | ⟨hb1, hb2⟩
        · exact absurd he ht
        · simp [segLoop, canonEntry, ht, floatOrZero_of_boundOk hb1,
            floatOrZero_of_boundOk hb2, ih hrest, List.filterMap_cons]
    | striple args =>
      match args with
      | [] => simp [segLoop, canonEntry, List.filterMap_cons, ih hrest]
      | [a0] => simp [segLoop, canonEntry, List.filterMap_cons, ih hrest]
      | [a0, a1] => simp [segLoop, canonEntry, List.filterMap_cons, ih hrest]
      | a0 :: a1 :: a2 :: tl =>
        by_cases ht : isNoneF a2 = true
        · simp [segLoop, canonEntry, ht, List.filterMap_cons, ih hrest]
        · simp only [goodEntryB, Bool.or_eq_true, Bool.and_eq_true] at he
          rcases he with he | ⟨hb1, hb2⟩
          · exact absurd he ht
          · simp [segLoop, canonEntry, ht, floatOrZero_of_boundOk hb1,
              floatOrZero_of_boundOk hb2, ih hrest, List.filterMap_cons]

/-- C8: `_normalize_segments` maps a list input to the ordered canonical
records — entries with no text value are dropped without error, missing
bounds default to `0.0`, both mapping-shaped and triple-shaped entries are
accepted (for entries whose bounds are absent-or-numeric, so `float()`
cannot raise); in particular the spec's example normalizes to
`{start 0.0, end 1.0, text "hi"}`. -/
theorem claim_C8_normalize_segments (l : List SegEntry)
    (h : ∀ e ∈ l, goodEntryB e = true) :
    normalize_segments (.fsegs l) = .ok (l.filterMap canonEntry) ∧
    normalize_segments (.fsegs [.sdict [("start", .fnum 0), ("end", .fnum 1),
        ("text", .fstr " hi ")]]) = .ok [⟨0, 1, "hi"⟩] ∧
    normalize_segments (.fsegs [.sdict [("start", .fnum 0)]]) = .ok [] := by
  refine ⟨?_, rfl, rfl⟩
  cases l with
  | nil => rfl
  | cons e rest =>
    simp only [normalize_segments, List.isEmpty_cons, if_false]
    exact segLoop_eq _ h

/-- C8 witness: the spec's example input, via the characterization. -/
theorem claim_C8_witness :
    normalize_segments (.fsegs [.sdict [("start", .fnum 0), ("end", .fnum 1),
        ("text", .fstr " hi ")]]) = .ok [⟨0, 1, "hi"⟩] :=
  (claim_C8_normalize_segments [] (by simp)).2.1

/-- C2: a model-construction failure inside the cache acquisition — missing
optional dependency, unsupported backend identifier, or a load error from
the backend library — raises, leaves the cache map untouched (so an
identical later call retries construction), and the lock is released on
every exit path. -/
theorem claim_C2_load_failure_not_cached (libs : BackendLibs)
    (b m d c : String) (st : CacheState) (hlock : st.lockHeld = false) :
    ((load_model libs b m d c st).2.lockHeld = false) ∧
    (∀ e, (load_model libs b m d c st).1 = .error e →
      (load_model libs b m d c st).2 = st ∧
        load_model libs b m d c ((load_model libs b m d c st).2) =
          load_model libs b m d c st) ∧
    (cacheLookup st.cache (b, m, d, c) = none →
      (b ∉ (["parakeet-mlx", "mlx-whisper", "faster-whisper"] : List String) →
        (load_model libs b m d c st).1 =
          .error (.runtimeError ("Unsupported transcription backend: " ++ b))) ∧
      (b = "parakeet-mlx" → libs.parakeet_available = false →
        (load_model libs b m d c st).1 = .error (.runtimeError
          "parakeet-mlx is not installed. Run `pip install parakeet-mlx` in services/transcribe/.venv.")) ∧
      (∀ e, b = "parakeet-mlx" → libs.parakeet_available = true →
        libs.parakeet_from_pretrained m = .error e →
        (load_model libs b m d c st).1 = .error e)) := by
  obtain ⟨cache, lockHeld⟩ := st
  simp only [CacheState.mk.injEq] at hlock ⊢
  subst hlock
  rcases hcl : cacheLookup cache (b, m, d, c) with _ | mv
  · -- cache miss: the lock is taken, the double check misses again, and the
    -- construction body decides the outcome
    rcases hbody : load_model_construct libs b m d c cache with e | ⟨mm, cache2⟩
    · refine ⟨?_, ?_, ?_⟩
      · simp [load_model, hcl, hbody]
      · intro e' _
        constructor
        · simp [load_model, hcl, hbody]
        · simp [load_model, hcl, hbody]
      · intro _
        refine ⟨?_, ?_, ?_⟩
        · intro hb
          simp only [List.mem_cons, List.mem_singleton] at hb
          push_neg at hb
          obtain ⟨h1, h2, h3⟩ := hb
          have : load_model_construct libs b m d c cache =
              .error (.runtimeError ("Unsupported transcription backend: " ++ b)) := by
            simp [load_model_construct, h1, h2, h3.1]
          simp [load_model, hcl, this]
        · intro hb hna
          subst hb
          have : load_model_construct libs "parakeet-mlx" m d c cache =
              .error (.runtimeError
                "parakeet-mlx is not installed. Run `pip install parakeet-mlx` in services/transcribe/.venv.") := by
            simp [load_model_construct, hna]
          simp [load_model, hcl, this]
        · intro e' hb ha hload
          subst hb
          have : load_model_construct libs "parakeet-mlx" m d c cache = .error e' := by
            simp [load_model_construct, ha, hload]
          simp [load_model, hcl, this]
    · refine ⟨?_, ?_, ?_⟩
      · simp [load_model, hcl, hbody]
      · intro e' he'
        exfalso
        simp [load_model, hcl, hbody] at he'
      · intro _
        refine ⟨?_, ?_, ?_⟩
        · intro hb
          simp only [List.mem_cons, List.mem_singleton] at hb
          push_neg at hb
          obtain ⟨h1, h2, h3⟩ := hb
          have : load_model_construct libs b m d c cache =
              .error (.runtimeError ("Unsupported transcription backend: " ++ b)) := by
            simp [load_model_construct, h1, h2, h3.1]
          rw [this] at hbody
          exact absurd hbody (by simp)
        · intro hb hna
          subst hb
          have : load_model_construct libs "parakeet-mlx" m d c cache =
              .error (.runtimeError
                "parakeet-mlx is not installed. Run `pip install parakeet-mlx` in services/transcribe/.venv.") := by
            simp [load_model_construct, hna]
          rw [this] at hbody
          exact absurd hbody (by simp)
        · intro e' hb ha hload
          subst hb
          have : load_model_construct libs "parakeet-mlx" m d c cache = .error e' := by
            simp [load_model_construct, ha, hload]
          rw [this] at hbody
          exact absurd hbody (by simp)
  · -- warm cache: the fast path returns without touching the lock
    refine ⟨?_, ?_, ?_⟩
    · simp [load_model, hcl]
    · intro e' he'
      exfalso
      simp [load_model, hcl] at he'
    · intro hnone
      exact absurd hnone (by simp)

/-- C2 witness: with parakeet-mlx missing, a cold-cache load fails, the
cache map stays empty and the lock ends released. -/
theorem claim_C2_witness :
    (load_model unavailableLibs "parakeet-mlx" "m" "d" "c" ⟨[], false⟩).2 = ⟨[], false⟩ ∧
      (load_model unavailableLibs "parakeet-mlx" "m" "d" "c" ⟨[], false⟩).1 =
        .error (.runtimeError
          "parakeet-mlx is not installed. Run `pip install parakeet-mlx` in services/transcribe/.venv.") := by
  have h := claim_C2_load_failure_not_cached unavailableLibs "parakeet-mlx" "m" "d" "c"
    ⟨[], false⟩ rfl
  have herr := (h.2.2 rfl).2.1 rfl rfl
  exact ⟨((h.2.1 _ herr).1), herr⟩

/-- C10: the duration computation is division-guarded — a header sample rate
of `0` raises `ValueError` instead of dividing by zero, and a positive rate
yields exactly frames divided by rate. -/
theorem claim_C10_duration_division_guard (frames rate : Nat) :
    (rate = 0 → wav_duration_seconds ⟨frames, rate⟩ =
      .error (.valueError "Audio sample rate is 0")) ∧
    (rate ≠ 0 → wav_duration_seconds ⟨frames, rate⟩ =
      .ok ((frames : ℚ) / (rate : ℚ))) := by
  constructor
  · intro h; simp [wav_duration_seconds, h]
  · intro h; simp [wav_duration_seconds, h]

/-- C10 witness. -/
theorem claim_C10_witness :
    wav_duration_seconds ⟨0, 0⟩ = .error (.valueError "Audio sample rate is 0") ∧
      wav_duration_seconds ⟨32000, 16000⟩ = .ok 2 := by
  refine ⟨(claim_C10_duration_division_guard 0 0).1 rfl, ?_⟩
  rw [(claim_C10_duration_division_guard 32000 16000).2 (by norm_num)]
  norm_num

/-- C3: audio duration is the canonical waveform's frame count divided by
its sample rate (32000 frames at 16000 Hz is exactly 2 s), and a request
whose duration exceeds the configured maximum fails `transcribe_file` with
the `ValueError` before the backend's transcribe entry point is invoked, on
both the canonical-waveform path and the faster-whisper path. -/
theorem claim_C3_duration_checked_before_backend
    (config : TranscribeConfig) (env : TranscribeEnv) (st st1 : CacheState)
    (backend model_name device compute_type language task prompt cleanup_mode :
      Option String)
    (return_segments : Bool) (eb em ed ec : String) (mdl : Option Nat) (w : WavInfo) :
    ((w.rate ≠ 0 → wav_duration_seconds w = .ok ((w.frames : ℚ) / (w.rate : ℚ))) ∧
      wav_duration_seconds ⟨32000, 16000⟩ = .ok 2) ∧
    (resolve_request_config config backend model_name device compute_type =
        .ok (eb, em, ed, ec) →
      load_model env.libs eb em ed ec st = (.ok mdl, st1) →
      (eb ≠ "faster-whisper" →
        ((env.audio.suffix_is_wav = true ∧ env.audio.wav_header = .ok w) ∨
          (env.audio.suffix_is_wav = false ∧ env.conv.ffmpeg_found = true ∧
            env.conv.result = .ok w)) →
        w.rate ≠ 0 →
        (w.frames : ℚ) / (w.rate : ℚ) > (config.max_duration_s : ℚ) →
        (transcribe_file config env st backend model_name device compute_type
            language task prompt cleanup_mode return_segments).1 =
          .error (.valueError
            ("Audio exceeds max duration (" ++ toString config.max_duration_s ++ "s)")) ∧
        Event.backendInvoked ∉ (transcribe_file config env st backend model_name device
            compute_type language task prompt cleanup_mode return_segments).2.2) ∧
      (∀ len : Nat, eb = "faster-whisper" →
        mdl.isNone = false →
        env.libs.fw_available = true →
        env.fw.audio_decode = .ok len →
        (len : ℚ) / 16000 > (config.max_duration_s : ℚ) →
        (transcribe_file config env st backend model_name device compute_type
            language task prompt cleanup_mode return_segments).1 =
          .error (.valueError
            ("Audio exceeds max duration (" ++ toString config.max_duration_s ++ "s)")) ∧
        Event.backendInvoked ∉ (transcribe_file config env st backend model_name device
            compute_type language task prompt cleanup_mode return_segments).2.2)) := by
  refine ⟨⟨fun h => by simp [wav_duration_seconds, h], by
    rw [show wav_duration_seconds ⟨32000, 16000⟩ =
      .ok ((32000 : ℚ) / (16000 : ℚ)) by simp [wav_duration_seconds]]
    norm_num⟩, ?_⟩
  intro hres hload
  constructor
  · intro hnfw hWav hrate hgt
    have hdur : wav_duration_seconds w = .ok ((w.frames : ℚ) / (w.rate : ℚ)) := by
      simp [wav_duration_seconds, hrate]
    rcases hWav with ⟨hA, hB⟩ | ⟨hA, hB, hC⟩
    · have hconv : convert_to_wav env = .ok (.ok w, false) := by
        simp [convert_to_wav, hA, hB]
      constructor
      · simp only [transcribe_file, hres, hload, if_neg hnfw, hconv, hdur, if_pos hgt]
      · simp only [transcribe_file, hres, hload, if_neg hnfw, hconv, hdur, if_pos hgt]
        simp
    · have hconv : convert_to_wav env = .ok (.ok w, true) := by
        simp [convert_to_wav, hA, hB, hC]
      constructor
      · simp only [transcribe_file, hres, hload, if_neg hnfw, hconv, hdur, if_pos hgt]
      · simp only [transcribe_file, hres, hload, if_neg hnfw, hconv, hdur, if_pos hgt]
        simp
  · intro len hfw hmdl hav hdec hgt
    subst hfw
    constructor
    · simp only [transcribe_file, hres, hload, if_pos rfl, hmdl, hav, hdec, if_pos hgt]
      simp
    · simp only [transcribe_file, hres, hload, if_pos rfl, hmdl, hav, hdec, if_pos hgt]
      simp

/-- C3 witness: the spec's scenario — a 2-second waveform (32000 frames at
16000 Hz) against a 1-second maximum fails with the validation error and
the backend is never invoked. -/
theorem claim_C3_witness :
    (transcribe_file { patchedConfig "parakeet-mlx" with max_duration_s := 1 } stubEnv
        ⟨[], false⟩ none none none none none none none none false).1 =
      .error (.valueError ("Audio exceeds max duration (" ++ toString (1 : Int) ++ "s)")) ∧
    Event.backendInvoked ∉
      (transcribe_file { patchedConfig "parakeet-mlx" with max_duration_s := 1 } stubEnv
        ⟨[], false⟩ none none none none none none none none false).2.2 := by
  have h := (claim_C3_duration_checked_before_backend
      { patchedConfig "parakeet-mlx" with max_duration_s := 1 } stubEnv ⟨[], false⟩
      ⟨[(("parakeet-mlx", "large-v3", "cpu", "int8"), some 1)], false⟩
      none none none none none none none none false
      "parakeet-mlx" "large-v3" "cpu" "int8" (some 1) ⟨32000, 16000⟩).2
      rfl rfl
  exact h.1 (by decide) (Or.inl ⟨rfl, rfl⟩) (by decide) (by norm_num)

/-- C1 (code-bug evaluation): `_resolve_request_config` reads
`config.backend` on every control path, but `TranscribeConfig` in
`config.py` defines no `backend` field and `load_config` never populates
one, so under the configuration the process actually builds every call —
with or without overrides — raises `AttributeError` instead of resolving
the effective settings. -/
theorem claim_C1_resolve_raises_attribute_error (cfg : TranscribeConfig)
    (hb : cfg.backend = none)
    (backend model_name device compute_type : Option String) :
    resolve_request_config cfg backend model_name device compute_type =
      .error (.attributeError
        "\x27TranscribeConfig\x27 object has no attribute \x27backend\x27") := by
  have hattr : configBackendAttr cfg = .error (.attributeError
      "\x27TranscribeConfig\x27 object has no attribute \x27backend\x27") := by
    simp [configBackendAttr, hb]
  rcases backend with _ | s
  · simp [resolve_request_config, hattr, Except.map]
  · by_cases hs : s = ""
    · subst hs; simp [resolve_request_config, hattr, Except.map]
    · simp [resolve_request_config, hattr, hs, pyTruthy]

/-- C1 witness: the default runtime configuration (no `backend` attribute),
request overriding only the backend. -/
theorem claim_C1_witness :
    resolve_request_config defaultRuntimeConfig (some "mlx-whisper") none none none =
      .error (.attributeError
        "\x27TranscribeConfig\x27 object has no attribute \x27backend\x27") :=
  claim_C1_resolve_raises_attribute_error defaultRuntimeConfig rfl
    (some "mlx-whisper") none none none

theorem gate_inv (s : GateState) (h : GateReachable s) :
    s.avail + s.running.length ≤ 1 ∧ s.admittedL ++ s.queue = s.arrivedL := by
  induction h with
  | init => simp [gateInit]
  | @step sp t hreach hstep ih =>
    obtain ⟨ih1, ih2⟩ := ih
    cases hstep with
    | arriveRun r s h1 hq =>
      constructor
      · show sp.avail - 1 + (sp.running ++ [r]).length ≤ 1
        simp only [List.length_append, List.length_singleton]
        omega
      · show (sp.admittedL ++ [r]) ++ sp.queue = sp.arrivedL ++ [r]
        rw [hq] at ih2
        simp only [List.append_nil] at ih2
        simp [hq, ih2]
    | arriveWait r s h =>
      refine ⟨ih1, ?_⟩
      show sp.admittedL ++ (sp.queue ++ [r]) = sp.arrivedL ++ [r]
      simp only [← List.append_assoc, ih2]
    | finishGrant r q s l1 l2 qs hr hq =>
      constructor
      · show sp.avail + ((l1 ++ l2) ++ [q]).length ≤ 1
        rw [hr] at ih1
        simp only [List.length_append, List.length_cons, List.length_singleton,
          List.length_nil] at ih1 ⊢
        omega
      · show (sp.admittedL ++ [q]) ++ qs = sp.arrivedL
        rw [hq] at ih2
        simp only [← ih2]
        simp
    | finishIdle r s l1 l2 hr hq =>
      refine ⟨?_, ih2⟩
      show sp.avail + 1 + (l1 ++ l2).length ≤ 1
      rw [hr] at ih1
      simp only [List.length_append, List.length_cons] at ih1 ⊢
      omega

/-- C9: under the capacity-one admission gate, every reachable state has at
most one request inside the backend-invocation phase (windows never overlap
in the interleaving semantics), and the admitted sequence followed by the
wait queue is exactly the arrival sequence, so admissions happen in FIFO
arrival order. -/
theorem claim_C9_admission_gate (s : GateState) (h : GateReachable s) :
    s.running.length ≤ 1 ∧ s.admittedL ++ s.queue = s.arrivedL := by
  obtain ⟨h1, h2⟩ := gate_inv s h
  exact ⟨by omega, h2⟩

/-- C9 witness: request 0 admitted, request 1 queued behind it. -/
theorem claim_C9_witness :
    ({ avail := 0, queue := [1], running := [0], arrivedL := [0, 1],
        admittedL := [0] } : GateState).running.length ≤ 1 ∧
      ({ avail := 0, queue := [1], running := [0], arrivedL := [0, 1],
          admittedL := [0] } : GateState).admittedL ++ [1] = [0, 1] :=
  claim_C9_admission_gate _
    (GateReachable.step
      (GateReachable.step GateReachable.init
        (GateStep.arriveRun 0 gateInit Nat.one_pos rfl))
      (GateStep.arriveWait 1 _ (Or.inl rfl)))

theorem lineBreak_isSpace {c : Char} (h : isLineBreak c = true) : isPySpace c = true := by
  simp only [isLineBreak, Bool.or_eq_true, decide_eq_true_eq] at h
  rcases h with ((((((((h | h) | h) | h) | h) | h) | h) | h) | h) | h <;> subst h <;> decide

theorem pyStripL_idem (l : List Char) : pyStripL (pyStripL l) = pyStripL l :=
  pyStripL_eq_self (pyStripL_headNotSpace l) (pyStripL_lastNotSpace l)

theorem pyStripStr_idem (s : String) : pyStripStr (pyStripStr s) = pyStripStr s := by
  unfold pyStripStr
  congr 1
  exact pyStripL_idem s.data

theorem splitlinesAux_ne_nil : ∀ (l cur : List Char), l ≠ [] ∨ cur ≠ [] →
    splitlinesAux cur l ≠ [] := by
  intro l
  induction l with
  | nil =>
    intro cur h
    rcases h with h | h
    · exact absurd rfl h
    · simp [splitlinesAux, List.isEmpty_iff, h]
  | cons c rest ih =>
    intro cur _
    cases rest with
    | nil => by_cases hb : isLineBreak c = true <;> simp [splitlinesAux, hb]
    | cons c2 rest2 =>
      by_cases hr : c = '\r'
      · subst hr
        by_cases hn : c2 = '\n' <;> simp [splitlinesAux, hn]
      · by_cases hb : isLineBreak c = true
        · simp [splitlinesAux, hr, hb]
        · have := ih (c :: cur) (Or.inl (by simp))
          simpa [splitlinesAux, hr, hb] using this

theorem joinNL_splitlines : ∀ (l cur : List Char),
    (∀ c ∈ l, isLineBreak c = true → c = '\n') →
    (∀ c, l.getLast? = some c → isLineBreak c = false) →
    joinNLChars (splitlinesAux cur l) = cur.reverse ++ l := by
  intro l
  induction l with
  | nil =>
    intro cur _ _
    by_cases hc : cur.isEmpty
    · have h0 : cur = [] := by simpa [List.isEmpty_iff] using hc
      simp [splitlinesAux, h0, joinNLChars]
    · simp [splitlinesAux, hc, joinNLChars]
  | cons c rest ih =>
    intro cur hb hl
    cases rest with
    | nil =>
      by_cases hbc : isLineBreak c = true
      · exact absurd (hl c rfl) (by simp [hbc])
      · simp [splitlinesAux, hbc, joinNLChars]
    | cons c2 rest2 =>
      have hbtail : ∀ x ∈ c2 :: rest2, isLineBreak x = true → x = '\n' :=
        fun x hx => hb x (List.mem_cons_of_mem _ hx)
      have hltail : ∀ x, (c2 :: rest2).getLast? = some x → isLineBreak x = false :=
        fun x hx => hl x (by rw [List.getLast?_cons_cons]; exact hx)
      by_cases hbc : isLineBreak c = true
      · have hcn : c = '\n' := hb c (by simp) hbc
        subst hcn
        rw [show splitlinesAux cur ('\n' :: c2 :: rest2) =
            cur.reverse :: splitlinesAux [] (c2 :: rest2) by simp [splitlinesAux, hbc]]
        have hM := splitlinesAux_ne_nil (c2 :: rest2) [] (Or.inl (by simp))
        have hrec := ih [] hbtail hltail
        rcases hMv : splitlinesAux [] (c2 :: rest2) with _ | ⟨m, M⟩
        · exact absurd hMv hM
        · rw [hMv] at hrec
          rw [show joinNLChars (cur.reverse :: m :: M) =
              cur.reverse ++ '\n' :: joinNLChars (m :: M) from rfl, hrec]
          simp
      · have hcr : c ≠ '\r' := by
          intro h
          subst h
          exact hbc (by decide)
        rw [show splitlinesAux cur (c :: c2 :: rest2) =
            splitlinesAux (c :: cur) (c2 :: rest2) by simp [splitlinesAux, hcr, hbc]]
        rw [ih (c :: cur) hbtail hltail]
        simp

theorem dropPreamble_noop (lines : List String)
    (h : ∀ l ls, lines = l :: ls →
      pyStripStr l ≠ "" ∧ preambleMatch (pyStripStr l) = false) :
    dropPreambleLines lines false = (lines, false) := by
  cases lines with
  | nil => rfl
  | cons l ls =>
    obtain ⟨h1, h2⟩ := h l ls rfl
    simp [dropPreambleLines, h1, h2]

theorem strip_llm_wrapper_noop (content : String)
    (hstable : pyStripStr content = content)
    (hline : ∀ l ls, pySplitlines content = l :: ls →
      pyStripStr l ≠ "" ∧ preambleMatch (pyStripStr l) = false)
    (hbr : ∀ c ∈ content.data, isLineBreak c = true → c = '\n') :
    strip_llm_wrapper content = content := by
  have hlast : ∀ c, content.data.getLast? = some c → isLineBreak c = false := by
    intro c hc
    have hsp : isPySpace c = false := by
      have h2 := pyStripL_lastNotSpace content.data
      have hd : pyStripL content.data = content.data := by
        have := congrArg String.data hstable
        simpa [pyStripStr] using this
      rw [hd] at h2
      exact h2 c hc
    by_cases hbk : isLineBreak c = true
    · rw [lineBreak_isSpace hbk] at hsp
      exact absurd hsp (by simp)
    · simpa using hbk
  have hjoin : pyJoinNL (pySplitlines content) = content := by
    unfold pyJoinNL pySplitlines
    rw [List.map_map]
    rw [show (String.data ∘ fun l => (⟨l⟩ : String)) = id from rfl, List.map_id]
    rw [show content = (⟨content.data⟩ : String) from rfl]
    exact congrArg _ (by simpa using joinNL_splitlines content.data [] hbr hlast)
  simp only [strip_llm_wrapper]
  rw [hstable, dropPreamble_noop _ hline]
  rw [show ((pySplitlines content, false).1) = pySplitlines content from rfl,
    show ((pySplitlines content, false).2) = false from rfl, hjoin, hstable]
  cases content.data with
  | nil => rfl
  | cons c0 cs => simp

/-- C4 counterexample: content `"a\r\nb"` has no JSON and no recognized
preamble, yet the extraction does not return the trimmed content unchanged —
`splitlines` + `"\n".join` rewrites the CRLF to `"\n"`. -/
theorem claim_C4_counterexample :
    extract_llm_content "a\r\nb" = "a\nb" ∧
      pyStripStr "a\r\nb" = "a\r\nb" ∧
      extract_json_text "a\r\nb" = none ∧
      pySplitlines "a\r\nb" = ["a", "b"] ∧
      preambleMatch "a" = false ∧
      ("a\nb" : String) ≠ "a\r\nb" :=
  ⟨by decide, by decide, by decide, by decide, by decide, by decide⟩

/-- C4 (amended): tier 1 — content that parses as a JSON object with a
`text` key yields that value (`null` → empty string, not failure); tier 2 —
otherwise the greedy brace-matched substring is tried the same way; tier 3 —
otherwise leading blank/preamble lines are dropped and a symmetric
single-quote wrapper stripped only if a line was removed; content with no
JSON and no recognized preamble comes back as the trimmed content with line
breaks normalized to `"\n"` (hence unchanged exactly when its breaks already
are `"\n"`); and the spec's two examples extract as stated. -/
theorem claim_C4_llm_extraction (content : String) :
    (∀ fields, parseJson (pyStripStr content) = some (.jobj fields) →
      jHasKey fields "text" = true →
      extract_llm_content content =
        (match jGetLast fields "text" with
         | some .jnull => ""
         | some v => pyStripStr (pyStrJson v)
         | none => "")) ∧
    (∀ fields block, tryJsonCandidate (pyStripStr content) = none →
      strBetweenBraces (pyStripStr content) = some block →
      parseJson block = some (.jobj fields) →
      jHasKey fields "text" = true →
      extract_llm_content content =
        (match jGetLast fields "text" with
         | some .jnull => ""
         | some v => pyStripStr (pyStrJson v)
         | none => "")) ∧
    (extract_json_text (pyStripStr content) = none →
      (∀ l ls, pySplitlines (pyStripStr content) = l :: ls →
        pyStripStr l ≠ "" ∧ preambleMatch (pyStripStr l) = false) →
      (∀ c ∈ (pyStripStr content).data, isLineBreak c = true → c = '\n') →
      extract_llm_content content = pyStripStr content) ∧
    extract_llm_content "\x7b\"text\": \"Hello there.\"\x7d" = "Hello there." ∧
    extract_llm_content "Here\x27s the cleaned transcription:\n\"Hello there.\"" =
      "Hello there." := by
  refine ⟨?_, ?_, ?_, by decide, by decide⟩
  · intro fields h hk
    have h1 : tryJsonCandidate (pyStripStr content) =
        some (match jGetLast fields "text" with
              | some .jnull => ""
              | some v => pyStripStr (pyStrJson v)
              | none => "") := by
      simp [tryJsonCandidate, h, hk]
    simp [extract_llm_content, extract_json_text, h1]
  · intro fields block h1 hblock h2 hk
    have h3 : tryJsonCandidate block =
        some (match jGetLast fields "text" with
              | some .jnull => ""
              | some v => pyStripStr (pyStrJson v)
              | none => "") := by
      simp [tryJsonCandidate, h2, hk]
    simp [extract_llm_content, extract_json_text, h1, hblock, h3]
  · intro hjs hline hbr
    have e : extract_llm_content content = strip_llm_wrapper (pyStripStr content) := by
      simp [extract_llm_content, hjs]
    rw [e]
    exact strip_llm_wrapper_noop (pyStripStr content) (pyStripStr_idem content) hline hbr

/-- C4 witness: plain content with no JSON and no preamble is returned
trimmed and unchanged. -/
theorem claim_C4_witness :
    extract_llm_content "plain text" = pyStripStr "plain text" := by
  apply (claim_C4_llm_extraction "plain text").2.2.1
  · decide
  · intro l ls hls
    rw [show pySplitlines (pyStripStr "plain text") = ["plain text"] from rfl] at hls
    injection hls with h1 h2
    subst h1
    exact ⟨by decide, by decide⟩
  · decide

/-- C6 witness: an explicitly given mode normalizing to `basic` routes to
the basic cleanup. -/
theorem claim_C6_witness :
    apply_cleanup noopLlm "x  y" defaultRuntimeConfig (some " BASIC ") =
      .ok (basic_cleanup "x  y") :=
  ((claim_C6_cleanup_mode_dispatch noopLlm defaultRuntimeConfig "x  y").2.1 " BASIC "
    (by decide)).2.1 (by decide)
